import Mathlib

/-!
Verification development for the MaCVi USV obstacle-detection challenge evaluation
toolkit.  The definitions below are a shallow embedding of the Python sources:

* `src/macvi_usv_odce_toolkit/utils.py` — `bbox_in_mask`, `compute_iou`,
  `compute_iou_overlaps`;
* `src/macvi_usv_odce_toolkit/evaluation.py` — `convert_to_coco_structures`
  (the corpus assembler) and the F-score reduction of
  `evaluate_detection_results`;
* `src/macvi_usv_odce_toolkit/danger_zone_mask.py` — the point-filtering and
  polygon-closing tail of `construct_mask_from_danger_zone`.

Numpy 2-D uint8 arrays are modelled as a dimension pair plus a value function;
Python ints are `Int`, Python floats appearing in pure arithmetic are `Rat`.
Python slice semantics (including negative-index wrap-around) are modelled
exactly, since several properties hinge on them.  External native routines
(cv2 image IO, cv2.projectPoints, cv2.fillPoly, camera-calibration loading and
pycocotools) are opaque in the source and are taken as parameters, with the
image size pinned to the 1278x958 resolution that the source asserts.
-/

attribute [local semireducible] Rat.add Rat.mul Rat.sub Rat.inv List.merge List.mergeSort

/-- Image width asserted by `convert_to_coco_structures` (`assert image_width == 1278`). -/
def imageWidth : ℕ := 1278

/-- Image height asserted by `convert_to_coco_structures` (`assert image_height == 958`). -/
def imageHeight : ℕ := 958

/-- Normalisation of one endpoint of a Python slice `a[s:...]` over a sequence of
length `len`: negative indices count from the end, and the result is clamped to
`[0, len]`.  This is exactly CPython / numpy basic-slicing behaviour. -/
def sliceNorm (len : ℕ) (s : ℤ) : ℕ :=
  if s < 0 then ((len : ℤ) + s).toNat else min s.toNat len

/-- The list of indices selected by the Python slice `a[lo:hi]` over a sequence of
length `len` (step 1). -/
def sliceIdx (len : ℕ) (lo hi : ℤ) : List ℕ :=
  List.range' (sliceNorm len lo) (sliceNorm len hi - sliceNorm len lo)

/-- A numpy 2-D array of unsigned integers (row count, column count, values).
Values are total functions; only indices below the dimensions are ever read. -/
structure NpMask where
  h : ℕ
  w : ℕ
  val : ℕ → ℕ → ℕ

/-- `np.zeros((h, w), dtype=np.uint8)`. -/
def npZeros (h w : ℕ) : NpMask := ⟨h, w, fun _ _ => 0⟩

/-- `np.ones((h, w), dtype=np.uint8)`. -/
def npOnes (h w : ℕ) : NpMask := ⟨h, w, fun _ _ => 1⟩

/-- `a |= b` on equally-shaped uint8 masks (bitwise or, pointwise). -/
def npOr (a b : NpMask) : NpMask := ⟨a.h, a.w, fun i j => a.val i j ||| b.val i j⟩

/-- `mask[mask > 0] = 1`: clamp a mask to 0/1 values in place. -/
def npClamp01 (a : NpMask) : NpMask :=
  ⟨a.h, a.w, fun i j => if 0 < a.val i j then 1 else a.val i j⟩

/-- `mask[y:(y + h), x:(x + w)] = v`: region assignment through Python slices. -/
def npSetRegion (a : NpMask) (x y w h : ℤ) (v : ℕ) : NpMask :=
  ⟨a.h, a.w, fun i j =>
    if (sliceNorm a.h y ≤ i ∧ i < sliceNorm a.h (y + h)) ∧
        (sliceNorm a.w x ≤ j ∧ j < sliceNorm a.w (x + w)) then v
    else a.val i j⟩

/-- `np.sum(mask[y:(y + h), x:(x + w)])`. -/
def npRoiSum (m : NpMask) (x y w h : ℤ) : ℕ :=
  ((sliceIdx m.h y (y + h)).map fun i =>
    ((sliceIdx m.w x (x + w)).map fun j => m.val i j).sum).sum

/-- Python `round` to an integer: round-half-to-even (bankers rounding), the
behaviour of CPython `round(float)` on exactly-representable inputs. -/
def pyRound (q : ℚ) : ℤ :=
  let f : ℤ := q.num.ediv (q.den : ℤ)
  let frac : ℚ := q - (f : ℚ)
  if frac < mkRat 1 2 then f
  else if mkRat 1 2 < frac then f + 1
  else if f % 2 = 0 then f else f + 1

/-- Python `int()` on a real value: truncation toward zero. -/
def pyTrunc (q : ℚ) : ℤ := q.num.tdiv (q.den : ℤ)

/-- A bounding-box rectangle `(x, y, w, h)` with real-valued entries. -/
structure QBox where
  x : ℚ
  y : ℚ
  w : ℚ
  h : ℚ
deriving DecidableEq

/-- A bounding-box rectangle `(x, y, w, h)` with integer entries, as they occur in
the dataset/results JSON files (integer JSON values; used directly as slice
indices by the negative-annotation handling, which requires them to be ints). -/
structure IBox where
  x : ℤ
  y : ℤ
  w : ℤ
  h : ℤ
deriving DecidableEq

/-- View an integer box as a real-valued box. -/
def IBox.toQ (b : IBox) : QBox := ⟨(b.x : ℚ), (b.y : ℚ), (b.w : ℚ), (b.h : ℚ)⟩

/-- The value `overlap / (w * h)` computed by `utils.bbox_in_mask` after rounding
the rectangle entries: the sum of mask values over the sliced region divided by
the full rounded box area.  When `w * h = 0` the Python code produces a numpy
nan/inf (the sliced region is then empty, so the comparison below agrees with
the Python result for every non-negative threshold); the `Rat` convention
`n / 0 = 0` coincides with that outcome. -/
def maskCoverage (m : NpMask) (r : QBox) : ℚ :=
  ((npRoiSum m (pyRound r.x) (pyRound r.y) (pyRound r.w) (pyRound r.h) : ℕ) : ℚ) /
    ((pyRound r.w * pyRound r.h : ℤ) : ℚ)

/-- `utils.bbox_in_mask(mask, rect, thr=0.5)`: whether the overlap ratio of the
(rounded) rectangle with the mask exceeds the threshold. -/
def bbox_in_mask (m : NpMask) (r : QBox) (thr : ℚ := mkRat 1 2) : Bool :=
  decide (maskCoverage m r > thr)

/-- `utils.compute_iou(bbox1, bbox2)`: axis-aligned intersection over union.  The
local variables `x_left`, `y_top`, `x_right`, `y_bottom`, `intersection_area` of
the source are inlined. -/
def compute_iou (bbox1 bbox2 : QBox) : ℚ :=
  if min (bbox1.x + bbox1.w) (bbox2.x + bbox2.w) < max bbox1.x bbox2.x ∨
      min (bbox1.y + bbox1.h) (bbox2.y + bbox2.h) < max bbox1.y bbox2.y then 0
  else
    (min (bbox1.x + bbox1.w) (bbox2.x + bbox2.w) - max bbox1.x bbox2.x) *
        (min (bbox1.y + bbox1.h) (bbox2.y + bbox2.h) - max bbox1.y bbox2.y) /
      (bbox1.w * bbox1.h + bbox2.w * bbox2.h -
        (min (bbox1.x + bbox1.w) (bbox2.x + bbox2.w) - max bbox1.x bbox2.x) *
          (min (bbox1.y + bbox1.h) (bbox2.y + bbox2.h) - max bbox1.y bbox2.y))

/-- `utils.compute_iou_overlaps(rect, annotations, thr=0.3)`: IoU of `rect`
against each listed box, with values at or below the threshold reset to 0.
The caller passes the list of `bbox` fields of its annotation dictionaries. -/
def compute_iou_overlaps (rect : QBox) (boxes : List QBox) (thr : ℚ := mkRat 3 10) :
    List ℚ :=
  (boxes.map fun b => compute_iou rect b).map fun v => if v > thr then v else 0

/-- Evaluation mode of `convert_to_coco_structures`. -/
inductive EvalMode
  | full
  | edge
  | dz
deriving DecidableEq

/-- `OBSTACLE_CLASSES = ('ship', 'person', 'other')`. -/
def OBSTACLE_CLASSES : List String := ["ship", "person", "other"]

/-- `OBSTACLE_CLASS_NAME_TO_ID_MAP`: name-to-index lookup over `OBSTACLE_CLASSES`.
An unknown name raises `KeyError` in the source; the out-of-range value 3 stands
in for that case here (no property in this development depends on it). -/
def classNameToId (name : String) : ℕ :=
  if name = "ship" then 0 else if name = "person" then 1 else
  if name = "other" then 2 else 3

/-- A detection category: either a symbolic class name or a numeric class id
(`evaluation.py` accepts both). -/
inductive DetClass
  | byName (s : String)
  | byId (n : ℕ)
deriving DecidableEq

/-- Category id resolution for detections (`isinstance(class_id, str)` branch). -/
def detTypeToId (t : DetClass) : ℕ :=
  match t with
  | .byName s => classNameToId s
  | .byId n => n

/-- An annotated obstacle of a dataset frame (fields `type`, `bbox`, `area`). -/
structure Obstacle where
  type : String
  bbox : IBox
  area : ℚ
deriving DecidableEq

/-- A detected obstacle of a results frame (fields `type`, `bbox`). -/
structure Detection where
  type : DetClass
  bbox : IBox
deriving DecidableEq

/-- A frame of the dataset (ground-truth) JSON file.  `water_edges` entries are
`(x_axis, y_axis)` coordinate lists. -/
structure DFrame where
  id : ℤ
  exhaustive : Option ℤ
  roll : ℚ
  pitch : ℚ
  water_edges : List (List ℚ × List ℚ)
  image_file_name : String
  obstacles : List Obstacle

/-- A frame of the results (detections) JSON file. -/
structure RFrame where
  id : ℤ
  detections : List Detection

/-- A sequence of the dataset JSON file.  `mask` is the static sequence ignore
mask: `some m` when the sequence declares a `mask` attribute and
`cv2.imread('ignore_mask.png')` succeeds (an arbitrary uint8 image), `none`
otherwise.  Calibration loading is external; the path is kept because the
danger-zone builder depends on the per-sequence calibration derived from it. -/
structure DSeq where
  id : ℤ
  path : String
  exhaustive : ℤ
  mask : Option NpMask
  frames : List DFrame

/-- A sequence of the results JSON file. -/
structure RSeq where
  id : ℤ
  frames : List RFrame

/-- A COCO image entry emitted by the corpus assembler. -/
structure ImgEntry where
  id : ℕ
  width : ℕ
  height : ℕ
  file_name : String
deriving DecidableEq

/-- A COCO annotation entry emitted by the corpus assembler. -/
structure AnnEntry where
  id : ℕ
  image_id : ℕ
  category_id : ℕ
  bbox : IBox
  iscrowd : ℕ
  area : ℚ
  ignore : ℕ
deriving DecidableEq

/-- A COCO detection entry emitted by the corpus assembler. -/
structure DetEntry where
  image_id : ℕ
  category_id : ℕ
  bbox : IBox
  score : ℕ
  ignore : ℕ
deriving DecidableEq

/-- The mutable state of `convert_to_coco_structures`: the global id counters and
the accumulated image / annotation / detection entry lists. -/
structure ConvState where
  image_id : ℕ
  annotation_id : ℕ
  images : List ImgEntry
  anns : List AnnEntry
  dets : List DetEntry
deriving DecidableEq

/-- Truthiness of a numpy array (`if sequence_mask:`): a single-element array is
truthy iff its element is non-zero; any other size raises
`ValueError: The truth value of an array ... is ambiguous`. -/
def npTruthy (m : NpMask) : Except String Bool :=
  if m.h * m.w = 1 then .ok (decide (m.val 0 0 ≠ 0))
  else .error "ValueError: The truth value of an array with more than one element is ambiguous"

/-- Per-frame exhaustive flag: false when the sequence-level flag is false,
otherwise the sequence flag unless the frame carries its own override. -/
def frameExhaustive (seqEx : Bool) (f : DFrame) : Bool :=
  if seqEx then
    match f.exhaustive with
    | some e => decide (e > 0)
    | none => seqEx
  else false

/-- Mask construction for one frame (`evaluation.py` lines 140-199).  `dzFn`
abstracts `construct_mask_from_danger_zone` applied to the frame attitude and
the sequence calibration (identified by the sequence path); `edgeFn` abstracts
`construct_mask_from_sea_edge`.  Note the non-exhaustive `dz` branch tests the
static mask with numpy truthiness (`if sequence_mask:`), unlike the exhaustive
branch which tests `is not None`. -/
def frameMask (dzFn : String → ℚ → ℚ → Except String NpMask)
    (edgeFn : List (List ℚ × List ℚ) → Except String NpMask)
    (mode : EvalMode) (pth : String) (smk : Option NpMask) (fex : Bool) (f : DFrame) :
    Except String NpMask :=
  if fex then
    match (match mode with
      | .edge => (edgeFn f.water_edges).map fun em => npOr (npZeros imageHeight imageWidth) em
      | .dz => (dzFn pth f.roll f.pitch).map fun dm => npOr (npZeros imageHeight imageWidth) dm
      | .full => .ok (npZeros imageHeight imageWidth)) with
    | .error e => .error e
    | .ok m =>
      .ok (npClamp01 (match smk with | some sm => npOr m sm | none => m))
  else
    match mode with
    | .dz =>
      match dzFn pth f.roll f.pitch with
      | .error e => .error e
      | .ok dm =>
        match smk with
        | some sm =>
          match npTruthy sm with
          | .error e => .error e
          | .ok b => .ok (npClamp01 (if b then npOr dm sm else dm))
        | none => .ok (npClamp01 dm)
    | _ => .ok (npOnes imageHeight imageWidth)

/-- State of the annotation loop: the (mutated-in-place) mask, the global
annotation id counter and the annotation entries emitted so far. -/
structure AnnState where
  mask : NpMask
  ann_id : ℕ
  entries : List AnnEntry

/-- One iteration of the annotation loop (`evaluation.py` lines 205-235): a
`negative` annotation marks its box region as 1 in the mask; any other
annotation computes its ignore flag and detection overlaps, is dropped in `dz`
mode when ignored and unmatched, and is otherwise emitted. -/
def annStep (dets : List Detection) (mode : EvalMode) (icl : Bool) (imgId : ℕ)
    (s : AnnState) (a : Obstacle) : AnnState :=
  if a.type = "negative" then
    { s with mask := npSetRegion s.mask a.bbox.x a.bbox.y a.bbox.w a.bbox.h 1 }
  else if bbox_in_mask s.mask a.bbox.toQ = true ∧
      (compute_iou_overlaps a.bbox.toQ (dets.map fun d => d.bbox.toQ)).any
        (fun v => decide (v ≠ 0)) = false ∧ mode = .dz
  then s
  else
    { s with
      entries := s.entries ++ [{
        id := s.ann_id,
        image_id := imgId,
        category_id := if icl then 0 else classNameToId a.type,
        bbox := a.bbox,
        iscrowd := 0,
        area := a.area,
        ignore := if bbox_in_mask s.mask a.bbox.toQ then 1 else 0 }],
      ann_id := s.ann_id + 1 }

/-- The annotation loop over one frame. -/
def annLoop (mask : NpMask) (obstacles : List Obstacle) (dets : List Detection)
    (mode : EvalMode) (icl : Bool) (imgId : ℕ) (annId : ℕ) : AnnState :=
  obstacles.foldl (annStep dets mode icl imgId) ⟨mask, annId, []⟩

/-- One iteration of the detection loop (`evaluation.py` lines 237-259). -/
def detStep (obstacles : List Obstacle) (mode : EvalMode) (icl : Bool) (imgId : ℕ)
    (mask : NpMask) (acc : List DetEntry) (d : Detection) : List DetEntry :=
  if bbox_in_mask mask d.bbox.toQ = true ∧
      (compute_iou_overlaps d.bbox.toQ (obstacles.map fun a => a.bbox.toQ)).any
        (fun v => decide (v ≠ 0)) = false ∧ mode = .dz
  then acc
  else
    acc ++ [{
      image_id := imgId,
      category_id := if icl then 0 else detTypeToId d.type,
      bbox := d.bbox,
      score := 1,
      ignore := if bbox_in_mask mask d.bbox.toQ then 1 else 0 }]

/-- The detection loop over one frame; it sees the mask as left by the
annotation loop (negative annotations applied). -/
def detLoop (mask : NpMask) (obstacles : List Obstacle) (dets : List Detection)
    (mode : EvalMode) (icl : Bool) (imgId : ℕ) : List DetEntry :=
  dets.foldl (detStep obstacles mode icl imgId mask) []

/-- Processing of one zipped frame pair (`evaluation.py` lines 128-267): frame id
check, mask construction, annotation and detection loops, image registration
and image-id increment. -/
def processFrame (dzFn : String → ℚ → ℚ → Except String NpMask)
    (edgeFn : List (List ℚ × List ℚ) → Except String NpMask)
    (mode : EvalMode) (icl : Bool) (pth : String) (smk : Option NpMask) (seqEx : Bool)
    (st : ConvState) (pair : DFrame × RFrame) : Except String ConvState :=
  if pair.1.id ≠ pair.2.id then .error "Dataset and results frame ID mismatch!"
  else
    match frameMask dzFn edgeFn mode pth smk (frameExhaustive seqEx pair.1) pair.1 with
    | .error e => .error e
    | .ok mask =>
      let s := annLoop mask pair.1.obstacles pair.2.detections mode icl
        st.image_id st.annotation_id
      let dentries := detLoop s.mask pair.1.obstacles pair.2.detections mode icl st.image_id
      .ok {
        image_id := st.image_id + 1,
        annotation_id := s.ann_id,
        images := st.images ++
          [⟨st.image_id, imageWidth, imageHeight, pair.1.image_file_name⟩],
        anns := st.anns ++ s.entries,
        dets := st.dets ++ dentries }

/-- Processing of one zipped sequence pair (`evaluation.py` lines 97-267):
sequence id check, then the frame loop over `zip(dataset_frames, results_frames)`
(note `zip` silently truncates to the shorter frame list). -/
def processSeq (dzFn : String → ℚ → ℚ → Except String NpMask)
    (edgeFn : List (List ℚ × List ℚ) → Except String NpMask)
    (mode : EvalMode) (icl : Bool) (st : ConvState) (pair : DSeq × RSeq) :
    Except String ConvState :=
  if pair.1.id ≠ pair.2.id then .error "Dataset and results sequence ID mismatch!"
  else
    (pair.1.frames.zip pair.2.frames).foldlM
      (processFrame dzFn edgeFn mode icl pair.1.path pair.1.mask
        (decide (pair.1.exhaustive > 0))) st

/-- Sequence selection: `sequences = set(sequences) if sequences is not None else
set()`, then `if sequences:` — an absent or empty selection keeps everything. -/
def selectSeqsD (sel : Option (List ℤ)) (l : List DSeq) : List DSeq :=
  match sel with
  | some ids => if ids.isEmpty then l else l.filter fun s => decide (s.id ∈ ids)
  | none => l

/-- Sequence selection on the results side. -/
def selectSeqsR (sel : Option (List ℤ)) (l : List RSeq) : List RSeq :=
  match sel with
  | some ids => if ids.isEmpty then l else l.filter fun s => decide (s.id ∈ ids)
  | none => l

/-- `dataset_sequences.sort(key=lambda seq: seq['id'])` (stable sort by id). -/
def sortSeqsD (l : List DSeq) : List DSeq :=
  l.mergeSort fun a b => decide (a.id ≤ b.id)

/-- `results_sequences.sort(key=lambda seq: seq['id'])` (stable sort by id). -/
def sortSeqsR (l : List RSeq) : List RSeq :=
  l.mergeSort fun a b => decide (a.id ≤ b.id)

/-- `convert_to_coco_structures`: sequence selection, the sequence-count
assertion, id-sorting of both sides, and the zipped sequence loop threading the
global state.  File loading is external; the two JSON structures arrive as
sequence lists.  Fatal `assert` / exception paths are `.error` values, in which
case no corpus is produced. -/
def convert_to_coco_structures (dzFn : String → ℚ → ℚ → Except String NpMask)
    (edgeFn : List (List ℚ × List ℚ) → Except String NpMask)
    (dataset : List DSeq) (results : List RSeq)
    (sel : Option (List ℤ)) (mode : EvalMode) (icl : Bool) : Except String ConvState :=
  if (selectSeqsD sel dataset).length ≠ (selectSeqsR sel results).length then
    .error "Mismatch in dataset and result sequences length!"
  else
    ((sortSeqsD (selectSeqsD sel dataset)).zip (sortSeqsR (selectSeqsR sel results))).foldlM
      (processSeq dzFn edgeFn mode icl) ⟨0, 0, [], [], []⟩

/-- The mask left after applying exactly the `negative` annotations of a list, in
list order (each marks its box region as 1), ignoring all other annotations. -/
def applyNegsOnly (mask : NpMask) (obs : List Obstacle) : NpMask :=
  obs.foldl
    (fun m a =>
      if a.type = "negative" then npSetRegion m a.bbox.x a.bbox.y a.bbox.w a.bbox.h 1
      else m)
    mask

/-- The id-independent content of an annotation entry:
`(image_id, category_id, bbox, ignore)`. -/
def annEntrySig (e : AnnEntry) : ℕ × ℕ × IBox × ℕ :=
  (e.image_id, e.category_id, e.bbox, e.ignore)

/-- The id-independent content of a detection entry:
`(image_id, category_id, bbox, ignore)`. -/
def detEntrySig (e : DetEntry) : ℕ × ℕ × IBox × ℕ :=
  (e.image_id, e.category_id, e.bbox, e.ignore)

/-- A mask whose dimensions are the asserted image size and whose in-range values
are all 1 (the all-ignore mask, up to out-of-range junk of the value function). -/
def allOnesOn (m : NpMask) : Prop :=
  m.h = imageHeight ∧ m.w = imageWidth ∧ ∀ i j, i < m.h → j < m.w → m.val i j = 1

/-- The pixel area of the part of the rounded box that lies inside the bounds of
the mask, for a box placed at non-negative coordinates: the row range
`[y, y + h) ∩ [0, m.h)` times the column range `[x, x + w) ∩ [0, m.w)`. -/
def inboundsPortionArea (m : NpMask) (r : QBox) : ℕ :=
  (min (pyRound r.y + pyRound r.h).toNat m.h - min (pyRound r.y).toNat m.h) *
    (min (pyRound r.x + pyRound r.w).toNat m.w - min (pyRound r.x).toNat m.w)

/-- The surviving projected danger-zone sample points
(`danger_zone_mask.py` lines 130-141): each projected point is kept iff both
coordinates fall within the margin-extended image bounds, and is then truncated
to integer pixel coordinates. -/
def dzSurvivingPolygon (projected_points : List (ℚ × ℚ))
    (image_width image_height : ℕ) (image_margin : ℚ) : List (ℤ × ℤ) :=
  projected_points.filterMap fun p =>
    if -image_margin ≤ p.1 ∧ p.1 ≤ (image_width : ℚ) + image_margin ∧
        -image_margin ≤ p.2 ∧ p.2 ≤ (image_height : ℚ) + image_margin
    then some (pyTrunc p.1, pyTrunc p.2) else none

/-- The polygon-closing tail of `construct_mask_from_danger_zone`
(`danger_zone_mask.py` lines 143-156), modelled from the point where the
projected 2-D points are available (plane estimation and `cv2.projectPoints`
are external native computations) up to the closed polygon that is handed to
the rasterizer (`cv2.fillPoly`, also external).  Reading `polygon[0]` of an
empty list raises `IndexError`, which aborts construction with no mask. -/
def construct_mask_from_danger_zone (projected_points : List (ℚ × ℚ))
    (image_width image_height : ℕ) (image_margin : ℚ) :
    Except String (List (ℤ × ℤ)) :=
  match dzSurvivingPolygon projected_points image_width image_height image_margin with
  | [] => .error "IndexError: list index out of range"
  | first :: rest =>
    let y_first := first.2
    let y_last := (rest.getLastD first).2
    .ok ([((0 : ℤ), (image_height : ℤ)), ((0 : ℤ), y_first)] ++
      (first :: rest) ++
      [((image_width : ℤ), y_last), ((image_width : ℤ), (image_height : ℤ)),
        ((0 : ℤ), (image_height : ℤ))])

/-- A numpy float64 value as relevant to the statistics post-processing: an exact
finite value, or one of the non-finite values. -/
inductive NpFloat
  | finite (q : ℚ)
  | nan
  | inf
  | neginf
deriving DecidableEq

/-- `np.finfo(np.float64).max`, the largest finite float64 value. -/
def FLOAT64_MAX : ℚ := (((2 ^ 53 - 1) * 2 ^ 971 : ℕ) : ℚ)

/-- `np.nan_to_num` with default arguments on one element: NaN becomes 0,
positive infinity becomes the largest finite float64, negative infinity the
smallest. -/
def nan_to_num (v : NpFloat) : ℚ :=
  match v with
  | .finite q => q
  | .nan => 0
  | .inf => FLOAT64_MAX
  | .neginf => -FLOAT64_MAX

/-- `stats[stats == -1] = 0` on one element. -/
def replaceSentinel (q : ℚ) : ℚ := if q = -1 then 0 else q

/-- The post-processing `evaluate_detection_results` applies to each statistic
reported by the metric engine: `np.nan_to_num`, then the −1 sentinel
replacement. -/
def fixStat (v : NpFloat) : ℚ := replaceSentinel (nan_to_num v)

/-- The local `_f_score` helper of `evaluate_detection_results`, with the
`precision` and `recall` parameters of the source named `p` and `r`. -/
def f_score (p r : ℚ) : ℚ :=
  if p ≠ 0 ∧ r ≠ 0 then 2 * (p * r) / (p + r)
  else 0

/-- The F-score reduction of `evaluate_detection_results` (lines 347-361): the
twelve raw statistics of the metric engine are post-processed by `fixStat`, and
the four F-scores are computed from the precision/recall index pairs
(0,8), (3,9), (4,10), (5,11). -/
def evaluate_f_scores (stats : Fin 12 → NpFloat) : ℚ × ℚ × ℚ × ℚ :=
  (f_score (fixStat (stats 0)) (fixStat (stats 8)),
    f_score (fixStat (stats 3)) (fixStat (stats 9)),
    f_score (fixStat (stats 4)) (fixStat (stats 10)),
    f_score (fixStat (stats 5)) (fixStat (stats 11)))

/-- Statistic post-processing as worded by the claim (for comparison with the
code): every sentinel −1 and every non-finite value is replaced with 0. -/
def claimFixStat (v : NpFloat) : ℚ :=
  match v with
  | .finite q => if q = -1 then 0 else q
  | _ => 0

/-- The F-score computation as worded by the claim (for comparison). -/
def claim_f_scores (stats : Fin 12 → NpFloat) : ℚ × ℚ × ℚ × ℚ :=
  (f_score (claimFixStat (stats 0)) (claimFixStat (stats 8)),
    f_score (claimFixStat (stats 3)) (claimFixStat (stats 9)),
    f_score (claimFixStat (stats 4)) (claimFixStat (stats 10)),
    f_score (claimFixStat (stats 5)) (claimFixStat (stats 11)))

/-- Statistic post-processing as worded by the amended claim: sentinel −1 and NaN
become 0, while infinite values are clamped to the extreme finite float64
values (they are not replaced with 0). -/
def amendedFixStat (v : NpFloat) : ℚ :=
  match v with
  | .finite q => if q = -1 then 0 else q
  | .nan => 0
  | .inf => FLOAT64_MAX
  | .neginf => -FLOAT64_MAX

/-- The F-score computation as worded by the amended claim. -/
def amended_f_scores (stats : Fin 12 → NpFloat) : ℚ × ℚ × ℚ × ℚ :=
  (f_score (amendedFixStat (stats 0)) (amendedFixStat (stats 8)),
    f_score (amendedFixStat (stats 3)) (amendedFixStat (stats 9)),
    f_score (amendedFixStat (stats 4)) (amendedFixStat (stats 10)),
    f_score (amendedFixStat (stats 5)) (amendedFixStat (stats 11)))

def c9_mask0 : NpMask := ⟨4, 4, fun _ _ => 0⟩
def c9_mask1 : NpMask := ⟨4, 4, fun _ _ => 1⟩
def c9_box : QBox := ⟨0, 0, 2, 2⟩

def c10w_mask : NpMask := ⟨4, 4, fun _ _ => 1⟩
def c10w_box : QBox := ⟨2, 0, 4, 4⟩

def c10_mask : NpMask := ⟨4, 4, fun _ _ => 1⟩
def c10_box : QBox := ⟨-3, 0, 2, 2⟩

def c8_points : List (ℚ × ℚ) := [(10000, 0), (-500, 20)]

def c6_boxA : QBox := ⟨0, 0, 2, 2⟩
def c6_boxB : QBox := ⟨1, 1, 4, 4⟩

def c7_stats : Fin 12 → NpFloat :=
  fun i => if i = 0 then .inf else if i = 8 then .finite 1 else .finite 0

def okZeroDzFn : String → ℚ → ℚ → Except String NpMask :=
  fun _ _ _ => .ok (npZeros imageHeight imageWidth)

def okZeroEdgeFn : List (List ℚ × List ℚ) → Except String NpMask :=
  fun _ => .ok (npZeros imageHeight imageWidth)

def c1_static_mask : NpMask := ⟨958, 1278, fun _ _ => 0⟩

def c1_dseq : DSeq :=
  ⟨0, "/kope100-00006790-00007090/frames/", 0, some c1_static_mask,
    [⟨0, none, 0, 0, [], "frame0.jpg", []⟩]⟩

def c1_rseq : RSeq := ⟨0, [⟨0, []⟩]⟩

def c2_dseq : DSeq :=
  ⟨0, "/kope100-00006790-00007090/frames/", 1, none,
    [⟨0, none, 0, 0, [], "frame0.jpg", []⟩, ⟨1, none, 0, 0, [], "frame1.jpg", []⟩]⟩

def c2_rseq : RSeq := ⟨0, [⟨0, []⟩]⟩

def c2w_dseq : DSeq :=
  ⟨0, "/kope100-00006790-00007090/frames/", 1, none,
    [⟨0, none, 0, 0, [], "frame0.jpg", []⟩]⟩

def c2w_rseq : RSeq := ⟨0, [⟨0, []⟩]⟩

def c3w_mask : NpMask := ⟨4, 4, fun _ _ => 0⟩
def c3w_neg : Obstacle := ⟨"negative", ⟨0, 0, 2, 2⟩, 4⟩
def c3w_pos : Obstacle := ⟨"ship", ⟨0, 0, 2, 2⟩, 4⟩

def c3_obstacles : List Obstacle :=
  [⟨"ship", ⟨0, 0, 2, 2⟩, 4⟩, ⟨"negative", ⟨0, 0, 2, 2⟩, 4⟩]

def c3_dseq : DSeq :=
  ⟨0, "/kope100-00006790-00007090/frames/", 1, none,
    [⟨0, none, 0, 0, [], "frame0.jpg", c3_obstacles⟩]⟩

def c3_rseq : RSeq := ⟨0, [⟨0, []⟩]⟩

def c4w_df : DFrame := ⟨0, none, 0, 0, [], "frame0.jpg", [⟨"ship", ⟨0, 0, 2, 2⟩, 4⟩]⟩
def c4w_rf : RFrame := ⟨0, [⟨.byName "person", ⟨5, 5, 2, 2⟩⟩]⟩

def c4_dseq : DSeq :=
  ⟨0, "/kope100-00006790-00007090/frames/", 0, none,
    [⟨0, none, 0, 0, [], "frame0.jpg", [⟨"ship", ⟨0, 0, 2, 2⟩, 4⟩]⟩]⟩

def c4_rseq : RSeq := ⟨0, [⟨0, [⟨.byName "ship", ⟨10, 10, 2, 2⟩⟩]⟩]⟩

def convInv (st : ConvState) : Prop :=
  (st.images.map fun e => e.id) = List.range st.images.length ∧
    st.image_id = st.images.length ∧
    (∀ a ∈ st.anns, a.image_id < st.images.length) ∧
    (∀ d ∈ st.dets, d.image_id < st.images.length)

def c5_dA : DSeq := ⟨2, "/kope100-a/frames/", 1, none, [⟨0, none, 0, 0, [], "a0.jpg", []⟩]⟩
def c5_dB : DSeq := ⟨1, "/kope200-b/frames/", 1, none, [⟨0, none, 0, 0, [], "b0.jpg", []⟩]⟩
def c5_rA : RSeq := ⟨2, [⟨0, []⟩]⟩
def c5_rB : RSeq := ⟨1, [⟨0, []⟩]⟩
def c5_out : ConvState :=
  ⟨2, 0, [⟨0, 1278, 958, "b0.jpg"⟩, ⟨1, 1278, 958, "a0.jpg"⟩], [], []⟩
theorem sliceNorm_le (len : ℕ) (s : ℤ) : sliceNorm len s ≤ len := by
  unfold sliceNorm
  split
  · omega
  · exact min_le_right _ _

theorem mem_sliceIdx {len : ℕ} {lo hi : ℤ} {i : ℕ} :
    i ∈ sliceIdx len lo hi ↔ sliceNorm len lo ≤ i ∧ i < sliceNorm len hi := by
  unfold sliceIdx
  rw [List.mem_range'_1]
  omega

theorem sliceIdx_length (len : ℕ) (lo hi : ℤ) :
    (sliceIdx len lo hi).length = sliceNorm len hi - sliceNorm len lo :=
  List.length_range' _ _ _

theorem list_sum_le_mul {α : Type} (l : List α) (f : α → ℕ) (c : ℕ)
    (hf : ∀ x ∈ l, f x ≤ c) : (l.map f).sum ≤ l.length * c := by
  induction l with
  | nil => simp
  | cons a t ih =>
    simp only [List.map_cons, List.sum_cons, List.length_cons]
    have h1 := hf a (by simp)
    have h2 := ih fun x hx => hf x (by simp [hx])
    calc f a + (t.map f).sum ≤ c + t.length * c := Nat.add_le_add h1 h2
      _ = (t.length + 1) * c := by ring

theorem npRoiSum_le (m : NpMask) (hval : ∀ i j, m.val i j ≤ 1) (x y w h : ℤ) :
    npRoiSum m x y w h ≤
      (sliceIdx m.h y (y + h)).length * (sliceIdx m.w x (x + w)).length := by
  unfold npRoiSum
  apply list_sum_le_mul
  intro i _
  have := list_sum_le_mul (sliceIdx m.w x (x + w)) (fun j => m.val i j) 1
    (fun j _ => hval i j)
  simpa using this

theorem npRoiSum_mono (m1 m2 : NpMask) (hh : m1.h = m2.h) (hw : m1.w = m2.w)
    (hle : ∀ i j, m1.val i j ≤ m2.val i j) (x y w h : ℤ) :
    npRoiSum m1 x y w h ≤ npRoiSum m2 x y w h := by
  unfold npRoiSum
  rw [← hh, ← hw]
  apply List.sum_le_sum
  intro i _
  apply List.sum_le_sum
  intro j _
  exact hle i j

theorem npRoiSum_congr (m1 m2 : NpMask) (hh : m1.h = m2.h) (hw : m1.w = m2.w)
    (hv : ∀ i j, i < m1.h → j < m1.w → m1.val i j = m2.val i j) (x y w h : ℤ) :
    npRoiSum m1 x y w h = npRoiSum m2 x y w h := by
  unfold npRoiSum
  rw [← hh, ← hw]
  apply congrArg
  apply List.map_congr_left
  intro i hi
  apply congrArg
  apply List.map_congr_left
  intro j hj
  exact hv i j (lt_of_lt_of_le (mem_sliceIdx.mp hi).2 (sliceNorm_le _ _))
    (lt_of_lt_of_le (mem_sliceIdx.mp hj).2 (sliceNorm_le _ _))

theorem bbox_in_mask_congr (m1 m2 : NpMask) (r : QBox) (thr : ℚ)
    (hh : m1.h = m2.h) (hw : m1.w = m2.w)
    (hv : ∀ i j, i < m1.h → j < m1.w → m1.val i j = m2.val i j) :
    bbox_in_mask m1 r thr = bbox_in_mask m2 r thr := by
  unfold bbox_in_mask maskCoverage
  rw [npRoiSum_congr m1 m2 hh hw hv]

/-- C9: for a fixed box with non-negative rounded width and height and a fixed
threshold, mask coverage is monotone in the mask content: pointwise-larger
0/1 masks give a coverage ratio at least as large, so a box reported inside the
ignore region stays reported inside it when ignored pixels are added. -/
theorem mask_coverage_monotone (m1 m2 : NpMask) (r : QBox) (thr : ℚ)
    (hh : m1.h = m2.h) (hw : m1.w = m2.w)
    (_hb1 : ∀ i j, m1.val i j ≤ 1) (_hb2 : ∀ i j, m2.val i j ≤ 1)
    (hle : ∀ i j, m1.val i j ≤ m2.val i j)
    (hwpos : 0 ≤ pyRound r.w) (hhpos : 0 ≤ pyRound r.h) :
    maskCoverage m1 r ≤ maskCoverage m2 r ∧
      (bbox_in_mask m1 r thr = true → bbox_in_mask m2 r thr = true) := by
  have hsum := npRoiSum_mono m1 m2 hh hw hle (pyRound r.x) (pyRound r.y)
    (pyRound r.w) (pyRound r.h)
  have hmain : maskCoverage m1 r ≤ maskCoverage m2 r := by
    unfold maskCoverage
    by_cases hz : pyRound r.w * pyRound r.h = 0
    · rw [hz]
      simp
    · have hpos : 0 < pyRound r.w * pyRound r.h :=
        lt_of_le_of_ne (mul_nonneg hwpos hhpos) (Ne.symm hz)
      have hposQ : (0 : ℚ) < ((pyRound r.w * pyRound r.h : ℤ) : ℚ) := by
        exact_mod_cast hpos
      exact (div_le_div_iff_of_pos_right hposQ).mpr (by exact_mod_cast hsum)
  refine ⟨hmain, fun h1 => ?_⟩
  unfold bbox_in_mask at h1 ⊢
  exact decide_eq_true (lt_of_lt_of_le (of_decide_eq_true h1) hmain)

theorem mask_coverage_monotone_witness :
    ((0 : ℤ) ≤ pyRound c9_box.w ∧ (0 : ℤ) ≤ pyRound c9_box.h) ∧
      (maskCoverage c9_mask0 c9_box ≤ maskCoverage c9_mask1 c9_box ∧
        (bbox_in_mask c9_mask0 c9_box (mkRat 1 2) = true →
          bbox_in_mask c9_mask1 c9_box (mkRat 1 2) = true)) :=
  ⟨by decide,
    mask_coverage_monotone c9_mask0 c9_mask1 c9_box (mkRat 1 2) rfl rfl
      (fun _ _ => Nat.zero_le 1) (fun _ _ => Nat.le_refl 1) (fun _ _ => Nat.zero_le 1)
      (by decide) (by decide)⟩

/-- C10 amended: for a box with non-negative rounded position and positive rounded
size, bbox_in_mask sums only over the in-bounds portion of the box region while
dividing by the full rounded area, so whenever that in-bounds portion is at most
the threshold fraction of the area the box is not reported inside the ignore
region (for boxes at negative coordinates Python slice wrap-around applies
instead and the property fails). -/
theorem bbox_outside_bounds (m : NpMask) (r : QBox) (thr : ℚ)
    (hval : ∀ i j, m.val i j ≤ 1)
    (hx : 0 ≤ pyRound r.x) (hy : 0 ≤ pyRound r.y)
    (hw : 0 < pyRound r.w) (hh : 0 < pyRound r.h)
    (hsmall : ((inboundsPortionArea m r : ℕ) : ℚ) ≤
      thr * ((pyRound r.w * pyRound r.h : ℤ) : ℚ)) :
    npRoiSum m (pyRound r.x) (pyRound r.y) (pyRound r.w) (pyRound r.h) ≤
        inboundsPortionArea m r ∧
      bbox_in_mask m r thr = false := by
  have hrow1 : sliceNorm m.h (pyRound r.y) = min (pyRound r.y).toNat m.h := by
    unfold sliceNorm
    rw [if_neg (by omega)]
  have hrow2 : sliceNorm m.h (pyRound r.y + pyRound r.h) =
      min (pyRound r.y + pyRound r.h).toNat m.h := by
    unfold sliceNorm
    rw [if_neg (by omega)]
  have hcol1 : sliceNorm m.w (pyRound r.x) = min (pyRound r.x).toNat m.w := by
    unfold sliceNorm
    rw [if_neg (by omega)]
  have hcol2 : sliceNorm m.w (pyRound r.x + pyRound r.w) =
      min (pyRound r.x + pyRound r.w).toNat m.w := by
    unfold sliceNorm
    rw [if_neg (by omega)]
  have hlen : (sliceIdx m.h (pyRound r.y) (pyRound r.y + pyRound r.h)).length *
      (sliceIdx m.w (pyRound r.x) (pyRound r.x + pyRound r.w)).length =
      inboundsPortionArea m r := by
    rw [sliceIdx_length, sliceIdx_length, hrow1, hrow2, hcol1, hcol2]
    rfl
  have h1 : npRoiSum m (pyRound r.x) (pyRound r.y) (pyRound r.w) (pyRound r.h) ≤
      inboundsPortionArea m r := by
    rw [← hlen]
    exact npRoiSum_le m hval _ _ _ _
  refine ⟨h1, ?_⟩
  unfold bbox_in_mask
  apply decide_eq_false
  apply not_lt.mpr
  unfold maskCoverage
  have hposQ : (0 : ℚ) < ((pyRound r.w * pyRound r.h : ℤ) : ℚ) := by
    exact_mod_cast mul_pos hw hh
  rw [div_le_iff₀ hposQ]
  calc ((npRoiSum m (pyRound r.x) (pyRound r.y) (pyRound r.w) (pyRound r.h) : ℕ) : ℚ)
      ≤ ((inboundsPortionArea m r : ℕ) : ℚ) := by exact_mod_cast h1
    _ ≤ thr * ((pyRound r.w * pyRound r.h : ℤ) : ℚ) := hsmall

theorem bbox_outside_bounds_witness :
    ((0 : ℤ) ≤ pyRound c10w_box.x ∧
      ((inboundsPortionArea c10w_mask c10w_box : ℕ) : ℚ) ≤
        mkRat 1 2 * ((pyRound c10w_box.w * pyRound c10w_box.h : ℤ) : ℚ)) ∧
      (npRoiSum c10w_mask (pyRound c10w_box.x) (pyRound c10w_box.y)
          (pyRound c10w_box.w) (pyRound c10w_box.h) ≤
        inboundsPortionArea c10w_mask c10w_box ∧
        bbox_in_mask c10w_mask c10w_box (mkRat 1 2) = false) :=
  ⟨by decide,
    bbox_outside_bounds c10w_mask c10w_box (mkRat 1 2) (fun _ _ => Nat.le_refl 1)
      (by decide) (by decide) (by decide) (by decide) (by decide)⟩

/-- C10 counterexample: a 2x2 box at x = −3 lies entirely outside the mask bounds
(its in-bounds portion is empty, in particular at most the threshold fraction of
its area), yet bbox_in_mask reports it inside the ignore region, because the
negative slice indices wrap around to the right edge of the numpy array. -/
theorem c10_counterexample :
    bbox_in_mask c10_mask c10_box = true ∧
      inboundsPortionArea c10_mask c10_box = 0 ∧
      pyRound c10_box.x + pyRound c10_box.w ≤ 0 ∧
      (((0 : ℕ) : ℚ)) ≤ mkRat 1 2 * ((pyRound c10_box.w * pyRound c10_box.h : ℤ) : ℚ) := by
  decide

/-- C8: when no projected danger-zone sample point survives the image-boundary
filter, the polygon-closing step of construct_mask_from_danger_zone reads the
first element of an empty list, so construction fails fatally (IndexError) and
no mask is returned. -/
theorem dz_zero_surviving_points_fatal (pts : List (ℚ × ℚ)) (W H : ℕ) (margin : ℚ)
    (h : dzSurvivingPolygon pts W H margin = []) :
    construct_mask_from_danger_zone pts W H margin =
      .error "IndexError: list index out of range" := by
  unfold construct_mask_from_danger_zone
  rw [h]

theorem dz_zero_surviving_points_fatal_witness :
    dzSurvivingPolygon c8_points imageWidth imageHeight 10 = [] ∧
      construct_mask_from_danger_zone c8_points imageWidth imageHeight 10 =
        .error "IndexError: list index out of range" :=
  ⟨by decide, dz_zero_surviving_points_fatal c8_points imageWidth imageHeight 10 (by decide)⟩

/-- C6: for bounding boxes with positive width and height, compute_iou always lies
in [0, 1]; a box has IoU 1 with itself; disjoint boxes (their x or y ranges
meet in at most a point) have IoU 0; and compute_iou is symmetric. -/
theorem compute_iou_props (a b : QBox)
    (haw : 0 < a.w) (hah : 0 < a.h) (hbw : 0 < b.w) (hbh : 0 < b.h) :
    (0 ≤ compute_iou a b ∧ compute_iou a b ≤ 1) ∧
      compute_iou a a = 1 ∧
      ((min (a.x + a.w) (b.x + b.w) ≤ max a.x b.x ∨
          min (a.y + a.h) (b.y + b.h) ≤ max a.y b.y) → compute_iou a b = 0) ∧
      compute_iou a b = compute_iou b a := by
  refine ⟨?_, ?_, ?_, ?_⟩
  · unfold compute_iou
    split
    · exact ⟨le_refl 0, zero_le_one⟩
    · rename_i hcond
      push_neg at hcond
      obtain ⟨h1, h2⟩ := hcond
      have hxl : a.x ≤ max a.x b.x := le_max_left _ _
      have hxr : min (a.x + a.w) (b.x + b.w) ≤ a.x + a.w := min_le_left _ _
      have hyl : a.y ≤ max a.y b.y := le_max_left _ _
      have hyr : min (a.y + a.h) (b.y + b.h) ≤ a.y + a.h := min_le_left _ _
      have hxl2 : b.x ≤ max a.x b.x := le_max_right _ _
      have hxr2 : min (a.x + a.w) (b.x + b.w) ≤ b.x + b.w := min_le_right _ _
      have hyl2 : b.y ≤ max a.y b.y := le_max_right _ _
      have hyr2 : min (a.y + a.h) (b.y + b.h) ≤ b.y + b.h := min_le_right _ _
      have hwn : 0 ≤ min (a.x + a.w) (b.x + b.w) - max a.x b.x := by linarith
      have hhn : 0 ≤ min (a.y + a.h) (b.y + b.h) - max a.y b.y := by linarith
      have hIA : (min (a.x + a.w) (b.x + b.w) - max a.x b.x) *
          (min (a.y + a.h) (b.y + b.h) - max a.y b.y) ≤ a.w * a.h := by
        apply mul_le_mul (by linarith) (by linarith) hhn (le_of_lt haw)
      have hIB : (min (a.x + a.w) (b.x + b.w) - max a.x b.x) *
          (min (a.y + a.h) (b.y + b.h) - max a.y b.y) ≤ b.w * b.h := by
        apply mul_le_mul (by linarith) (by linarith) hhn (le_of_lt hbw)
      have hBpos : 0 < b.w * b.h := mul_pos hbw hbh
      have hden : 0 < a.w * a.h + b.w * b.h -
          (min (a.x + a.w) (b.x + b.w) - max a.x b.x) *
            (min (a.y + a.h) (b.y + b.h) - max a.y b.y) := by linarith
      constructor
      · exact div_nonneg (mul_nonneg hwn hhn) (le_of_lt hden)
      · rw [div_le_one hden]
        linarith
  · unfold compute_iou
    rw [min_self, min_self, max_self, max_self]
    rw [if_neg (by push_neg; constructor <;> linarith)]
    have hApos : 0 < a.w * a.h := mul_pos haw hah
    have hnum : (a.x + a.w - a.x) * (a.y + a.h - a.y) = a.w * a.h := by ring
    rw [hnum]
    rw [show a.w * a.h + a.w * a.h - a.w * a.h = a.w * a.h by ring]
    exact div_self (ne_of_gt hApos)
  · intro hd
    unfold compute_iou
    split
    · rfl
    · rename_i hcond
      push_neg at hcond
      obtain ⟨h1, h2⟩ := hcond
      rcases hd with hd | hd
      · have : min (a.x + a.w) (b.x + b.w) - max a.x b.x = 0 := by linarith
        rw [this, zero_mul, zero_div]
      · have : min (a.y + a.h) (b.y + b.h) - max a.y b.y = 0 := by linarith
        rw [this, mul_zero, zero_div]
  · unfold compute_iou
    simp only [min_comm (b.x + b.w) (a.x + a.w), min_comm (b.y + b.h) (a.y + a.h),
      max_comm b.x a.x, max_comm b.y a.y]
    split
    · rfl
    · ring_nf

theorem compute_iou_props_witness :
    ((0 : ℚ) < c6_boxA.w ∧ (0 : ℚ) < c6_boxB.w) ∧
      ((0 ≤ compute_iou c6_boxA c6_boxB ∧ compute_iou c6_boxA c6_boxB ≤ 1) ∧
        compute_iou c6_boxA c6_boxA = 1 ∧
        ((min (c6_boxA.x + c6_boxA.w) (c6_boxB.x + c6_boxB.w) ≤ max c6_boxA.x c6_boxB.x ∨
            min (c6_boxA.y + c6_boxA.h) (c6_boxB.y + c6_boxB.h) ≤ max c6_boxA.y c6_boxB.y) →
          compute_iou c6_boxA c6_boxB = 0) ∧
        compute_iou c6_boxA c6_boxB = compute_iou c6_boxB c6_boxA) :=
  ⟨by decide,
    compute_iou_props c6_boxA c6_boxB (by decide) (by decide) (by decide) (by decide)⟩

theorem FLOAT64_MAX_gt_one : (1 : ℚ) < FLOAT64_MAX := by
  unfold FLOAT64_MAX
  have ha : (2 : ℕ) ≤ 2 ^ 971 := by
    calc (2 : ℕ) = 2 ^ 1 := by norm_num
      _ ≤ 2 ^ 971 := Nat.pow_le_pow_right (by norm_num) (by norm_num)
  have hb : (1 : ℕ) ≤ 2 ^ 53 - 1 := by norm_num
  have hc : (2 : ℕ) ≤ (2 ^ 53 - 1) * 2 ^ 971 := by
    calc (2 : ℕ) = 1 * 2 := by norm_num
      _ ≤ (2 ^ 53 - 1) * 2 ^ 971 := Nat.mul_le_mul hb ha
  exact_mod_cast lt_of_lt_of_le (by norm_num : (1 : ℕ) < 2) hc

theorem FLOAT64_MAX_pos : (0 : ℚ) < FLOAT64_MAX :=
  lt_trans one_pos FLOAT64_MAX_gt_one

theorem fixStat_eq_amended (v : NpFloat) : fixStat v = amendedFixStat v := by
  cases v with
  | finite q => rfl
  | nan =>
    show replaceSentinel 0 = 0
    unfold replaceSentinel
    rw [if_neg (by norm_num)]
  | inf =>
    show replaceSentinel FLOAT64_MAX = FLOAT64_MAX
    unfold replaceSentinel
    rw [if_neg (by intro hcontra; have h2 := FLOAT64_MAX_pos; rw [hcontra] at h2; linarith)]
  | neginf =>
    show replaceSentinel (-FLOAT64_MAX) = -FLOAT64_MAX
    unfold replaceSentinel
    rw [if_neg (by
      intro hcontra
      have h2 := neg_inj.mp hcontra
      have h3 := FLOAT64_MAX_gt_one
      rw [h2] at h3
      linarith)]

/-- C7 amended: evaluate_detection_results computes each of the four F-scores as
2·P·R/(P+R) when both the post-processed precision P and recall R are non-zero
and as 0 otherwise, where post-processing replaces the sentinel −1 and NaN with
0 and clamps infinite values to the extreme finite float64 values (infinities
are not replaced with 0). -/
theorem evaluate_f_scores_amended (stats : Fin 12 → NpFloat) :
    evaluate_f_scores stats = amended_f_scores stats := by
  unfold evaluate_f_scores amended_f_scores
  rw [fixStat_eq_amended, fixStat_eq_amended, fixStat_eq_amended, fixStat_eq_amended,
    fixStat_eq_amended, fixStat_eq_amended, fixStat_eq_amended, fixStat_eq_amended]

/-- C7 counterexample: with an overall-precision statistic of +inf (and overall
recall 1), np.nan_to_num turns the infinity into the largest finite float64
rather than 0, so the code computes a non-zero overall F-score, while the
claimed post-processing (every non-finite value replaced with 0) yields 0. -/
theorem c7_counterexample :
    evaluate_f_scores c7_stats ≠ claim_f_scores c7_stats ∧
      (claim_f_scores c7_stats).1 = 0 := by
  have hM := FLOAT64_MAX_pos
  have hMne : FLOAT64_MAX ≠ -1 := by
    intro h
    rw [h] at hM
    linarith
  have hf00 : f_score 0 0 = 0 := by
    unfold f_score
    rw [if_neg (by simp)]
  have hf01 : f_score 0 1 = 0 := by
    unfold f_score
    rw [if_neg (by simp)]
  have hfM1 : f_score FLOAT64_MAX 1 = 2 * (FLOAT64_MAX * 1) / (FLOAT64_MAX + 1) := by
    unfold f_score
    rw [if_pos ⟨ne_of_gt hM, one_ne_zero⟩]
  have e1 : fixStat (c7_stats 0) = FLOAT64_MAX := by
    show fixStat .inf = _
    unfold fixStat nan_to_num replaceSentinel
    rw [if_neg hMne]
  have e2 : fixStat (c7_stats 8) = 1 := by
    show fixStat (.finite 1) = _
    unfold fixStat nan_to_num replaceSentinel
    rw [if_neg (by norm_num)]
  have e3 : ∀ i : Fin 12, i ≠ 0 → i ≠ 8 → fixStat (c7_stats i) = 0 := by
    intro i hi0 hi8
    unfold c7_stats
    rw [if_neg hi0, if_neg hi8]
    show replaceSentinel 0 = 0
    unfold replaceSentinel
    rw [if_neg (by norm_num)]
  have hcode : evaluate_f_scores c7_stats =
      (2 * (FLOAT64_MAX * 1) / (FLOAT64_MAX + 1), 0, 0, 0) := by
    unfold evaluate_f_scores
    rw [e1, e2, e3 3 (by decide) (by decide), e3 9 (by decide) (by decide),
      e3 4 (by decide) (by decide), e3 10 (by decide) (by decide),
      e3 5 (by decide) (by decide), e3 11 (by decide) (by decide), hf00, hfM1]
  have g1 : claimFixStat (c7_stats 0) = 0 := rfl
  have g2 : claimFixStat (c7_stats 8) = 1 := by
    show claimFixStat (.finite 1) = 1
    show (if (1 : ℚ) = -1 then (0 : ℚ) else 1) = 1
    rw [if_neg (by norm_num)]
  have g3 : ∀ i : Fin 12, i ≠ 0 → i ≠ 8 → claimFixStat (c7_stats i) = 0 := by
    intro i hi0 hi8
    unfold c7_stats
    rw [if_neg hi0, if_neg hi8]
    show (if (0 : ℚ) = -1 then (0 : ℚ) else 0) = 0
    rw [if_neg (by norm_num)]
  have hclaim : claim_f_scores c7_stats = (0, 0, 0, 0) := by
    unfold claim_f_scores
    rw [g1, g2, g3 3 (by decide) (by decide), g3 9 (by decide) (by decide),
      g3 4 (by decide) (by decide), g3 10 (by decide) (by decide),
      g3 5 (by decide) (by decide), g3 11 (by decide) (by decide), hf00, hf01]
  constructor
  · intro heq
    rw [hcode, hclaim] at heq
    have hfst := congrArg Prod.fst heq
    simp only [Prod.fst] at hfst
    have hnumer : (0 : ℚ) < 2 * (FLOAT64_MAX * 1) / (FLOAT64_MAX + 1) :=
      div_pos (by linarith) (by linarith)
    rw [hfst] at hnumer
    exact lt_irrefl 0 hnumer
  · rw [hclaim]

/-- C1: a frame that is not exhaustively annotated, evaluated in mode dz, in a
sequence with a loaded static ignore mask (a 958x1278 image), makes the corpus
assembler abort with a ValueError instead of OR-ing the static mask into the
danger-zone mask and continuing: the non-exhaustive branch tests the numpy
array with `if sequence_mask:`, whose truth value is ambiguous for a
multi-element array (the exhaustive branch correctly uses `is not None`). -/
theorem c1_dz_static_mask_value_error :
    convert_to_coco_structures okZeroDzFn okZeroEdgeFn [c1_dseq] [c1_rseq] none .dz false =
      .error "ValueError: The truth value of an array with more than one element is ambiguous" :=
  rfl

/-- C2 counterexample: a ground-truth sequence with two frames paired with a
results sequence with a single frame (a frame-count mismatch) is not a fatal
error: `zip` silently truncates the frame lists and the run produces a corpus
containing only the first frame. -/
theorem c2_counterexample :
    convert_to_coco_structures okZeroDzFn okZeroEdgeFn [c2_dseq] [c2_rseq] none .full false =
        .ok ⟨1, 0, [⟨0, 1278, 958, "frame0.jpg"⟩], [], []⟩ ∧
      c2_dseq.frames.length = 2 ∧ c2_rseq.frames.length = 1 :=
  ⟨rfl, rfl, rfl⟩

theorem except_bind_error_eq {σ β : Type} (e : String) (g : σ → Except String β) :
    (Except.error e >>= g) = Except.error e := rfl

theorem except_bind_ok_eq {σ β : Type} (a : σ) (g : σ → Except String β) :
    (Except.ok a >>= g) = g a := rfl

theorem except_foldlM_ok_forall {σ α : Type} (f : σ → α → Except String σ) :
    ∀ (l : List α) (s sfin : σ), l.foldlM f s = .ok sfin →
      ∀ a ∈ l, ∃ t tnext, f t a = .ok tnext := by
  intro l
  induction l with
  | nil => intro s sfin _ a ha; exact absurd ha (List.not_mem_nil a)
  | cons x xs ih =>
    intro s sfin hfold a ha
    rw [List.foldlM_cons] at hfold
    cases hstep : f s x with
    | error e =>
      rw [hstep, except_bind_error_eq] at hfold
      exact Except.noConfusion hfold
    | ok t =>
      rw [hstep, except_bind_ok_eq] at hfold
      rcases List.mem_cons.mp ha with rfl | hmem
      · exact ⟨s, t, hstep⟩
      · exact ih t sfin hfold a hmem

theorem processFrame_ok_ids (dzFn : String → ℚ → ℚ → Except String NpMask)
    (edgeFn : List (List ℚ × List ℚ) → Except String NpMask)
    (mode : EvalMode) (icl : Bool) (pth : String) (smk : Option NpMask) (sex : Bool)
    (st stn : ConvState) (pr : DFrame × RFrame)
    (h : processFrame dzFn edgeFn mode icl pth smk sex st pr = .ok stn) :
    pr.1.id = pr.2.id := by
  by_contra hne
  unfold processFrame at h
  rw [if_pos hne] at h
  exact Except.noConfusion h

theorem processSeq_ok_ids (dzFn : String → ℚ → ℚ → Except String NpMask)
    (edgeFn : List (List ℚ × List ℚ) → Except String NpMask)
    (mode : EvalMode) (icl : Bool) (st stn : ConvState) (pr : DSeq × RSeq)
    (h : processSeq dzFn edgeFn mode icl st pr = .ok stn) :
    pr.1.id = pr.2.id ∧ ∀ fp ∈ pr.1.frames.zip pr.2.frames, fp.1.id = fp.2.id := by
  unfold processSeq at h
  by_cases hne : pr.1.id ≠ pr.2.id
  · rw [if_pos hne] at h
    exact Except.noConfusion h
  · rw [if_neg hne] at h
    push_neg at hne
    refine ⟨hne, fun fp hfp => ?_⟩
    obtain ⟨t, tnext, hstep⟩ := except_foldlM_ok_forall _ _ _ _ h fp hfp
    exact processFrame_ok_ids _ _ _ _ _ _ _ t tnext fp hstep

/-- C2 amended: whenever the corpus assembler completes (returns a corpus), the
selected dataset and results sequence lists have the same length, every paired
sequence has matching ids, and every paired frame has matching ids; a mismatch
in any of these aborts the run with no corpus.  However a frame-count mismatch
within a sequence is not itself detected: frames are paired with `zip` up to
the shorter list and surplus frames are silently dropped, so a run can complete
despite differing frame counts. -/
theorem c2_amended (dzFn : String → ℚ → ℚ → Except String NpMask)
    (edgeFn : List (List ℚ × List ℚ) → Except String NpMask)
    (ds : List DSeq) (rs : List RSeq) (sel : Option (List ℤ)) (mode : EvalMode)
    (icl : Bool) (st : ConvState)
    (h : convert_to_coco_structures dzFn edgeFn ds rs sel mode icl = .ok st) :
    (selectSeqsD sel ds).length = (selectSeqsR sel rs).length ∧
      ∀ p ∈ (sortSeqsD (selectSeqsD sel ds)).zip (sortSeqsR (selectSeqsR sel rs)),
        p.1.id = p.2.id ∧ ∀ fp ∈ p.1.frames.zip p.2.frames, fp.1.id = fp.2.id := by
  unfold convert_to_coco_structures at h
  by_cases hlen : (selectSeqsD sel ds).length ≠ (selectSeqsR sel rs).length
  · rw [if_pos hlen] at h
    exact Except.noConfusion h
  · rw [if_neg hlen] at h
    push_neg at hlen
    refine ⟨hlen, fun p hp => ?_⟩
    obtain ⟨t, tnext, hstep⟩ := except_foldlM_ok_forall _ _ _ _ h p hp
    exact processSeq_ok_ids _ _ _ _ t tnext p hstep

theorem c2_amended_witness :
    convert_to_coco_structures okZeroDzFn okZeroEdgeFn [c2w_dseq] [c2w_rseq] none .full false =
        .ok ⟨1, 0, [⟨0, 1278, 958, "frame0.jpg"⟩], [], []⟩ ∧
      ((selectSeqsD none [c2w_dseq]).length = (selectSeqsR none [c2w_rseq]).length ∧
        ∀ p ∈ (sortSeqsD (selectSeqsD none [c2w_dseq])).zip
            (sortSeqsR (selectSeqsR none [c2w_rseq])),
          p.1.id = p.2.id ∧ ∀ fp ∈ p.1.frames.zip p.2.frames, fp.1.id = fp.2.id) :=
  ⟨rfl, c2_amended okZeroDzFn okZeroEdgeFn [c2w_dseq] [c2w_rseq] none .full false
    ⟨1, 0, [⟨0, 1278, 958, "frame0.jpg"⟩], [], []⟩ rfl⟩

theorem annStep_neg (dets : List Detection) (mode : EvalMode) (icl : Bool) (imgId : ℕ)
    (s : AnnState) (a : Obstacle) (h : a.type = "negative") :
    annStep dets mode icl imgId s a =
      { s with mask := npSetRegion s.mask a.bbox.x a.bbox.y a.bbox.w a.bbox.h 1 } := by
  unfold annStep
  rw [if_pos h]

theorem annStep_pos (dets : List Detection) (mode : EvalMode) (icl : Bool) (imgId : ℕ)
    (s : AnnState) (a : Obstacle) (h : ¬ a.type = "negative") :
    annStep dets mode icl imgId s a =
      if bbox_in_mask s.mask a.bbox.toQ = true ∧
          (compute_iou_overlaps a.bbox.toQ (dets.map fun d => d.bbox.toQ)).any
            (fun v => decide (v ≠ 0)) = false ∧ mode = .dz
      then s
      else
        { s with
          entries := s.entries ++ [{
            id := s.ann_id,
            image_id := imgId,
            category_id := if icl then 0 else classNameToId a.type,
            bbox := a.bbox,
            iscrowd := 0,
            area := a.area,
            ignore := if bbox_in_mask s.mask a.bbox.toQ then 1 else 0 }],
          ann_id := s.ann_id + 1 } := by
  unfold annStep
  rw [if_neg h]

theorem annFold_mask (dets : List Detection) (mode : EvalMode) (icl : Bool) (imgId : ℕ) :
    ∀ (l : List Obstacle) (s : AnnState),
      (l.foldl (annStep dets mode icl imgId) s).mask = applyNegsOnly s.mask l := by
  intro l
  induction l with
  | nil => intro s; rfl
  | cons a t ih =>
    intro s
    rw [List.foldl_cons]
    unfold applyNegsOnly
    rw [List.foldl_cons]
    by_cases hneg : a.type = "negative"
    · rw [annStep_neg dets mode icl imgId s a hneg, if_pos hneg, ih]
      rfl
    · rw [annStep_pos dets mode icl imgId s a hneg, if_neg hneg]
      split
      · rw [ih]
        rfl
      · rw [ih]
        rfl

/-- C3 amended: negative annotations are applied to the mask in annotation-list
order, interleaved with the ignore-flag computation: the ignore flag computed
for a non-negative annotation accounts for the regions of exactly those
negative annotations that precede it in the list (the frame mask with the
preceding negatives applied), not for negatives that follow it. -/
theorem c3_amended (dets : List Detection) (mode : EvalMode) (icl : Bool) (imgId : ℕ)
    (mask : NpMask) (l1 l2 : List Obstacle) (a : Obstacle) (aid : ℕ)
    (ha : ¬ a.type = "negative") :
    ((l1 ++ a :: l2).foldl (annStep dets mode icl imgId) (⟨mask, aid, []⟩ : AnnState) =
        l2.foldl (annStep dets mode icl imgId)
          (annStep dets mode icl imgId
            (l1.foldl (annStep dets mode icl imgId) (⟨mask, aid, []⟩ : AnnState)) a)) ∧
      (l1.foldl (annStep dets mode icl imgId) (⟨mask, aid, []⟩ : AnnState)).mask =
        applyNegsOnly mask l1 ∧
      (annStep dets mode icl imgId
          (l1.foldl (annStep dets mode icl imgId) (⟨mask, aid, []⟩ : AnnState)) a =
        (if bbox_in_mask (applyNegsOnly mask l1) a.bbox.toQ = true ∧
            (compute_iou_overlaps a.bbox.toQ (dets.map fun d => d.bbox.toQ)).any
              (fun v => decide (v ≠ 0)) = false ∧ mode = .dz
        then l1.foldl (annStep dets mode icl imgId) (⟨mask, aid, []⟩ : AnnState)
        else
          { mask := applyNegsOnly mask l1,
            ann_id := (l1.foldl (annStep dets mode icl imgId)
              (⟨mask, aid, []⟩ : AnnState)).ann_id + 1,
            entries :=
              (l1.foldl (annStep dets mode icl imgId) (⟨mask, aid, []⟩ : AnnState)).entries ++ [{
                id := (l1.foldl (annStep dets mode icl imgId)
                  (⟨mask, aid, []⟩ : AnnState)).ann_id,
                image_id := imgId,
                category_id := if icl then 0 else classNameToId a.type,
                bbox := a.bbox,
                iscrowd := 0,
                area := a.area,
                ignore := if bbox_in_mask (applyNegsOnly mask l1) a.bbox.toQ then 1 else 0 }] })) := by
  have hmask := annFold_mask dets mode icl imgId l1 (⟨mask, aid, []⟩ : AnnState)
  refine ⟨by rw [List.foldl_append, List.foldl_cons], hmask, ?_⟩
  rw [annStep_pos _ _ _ _ _ _ ha, hmask]

theorem c3_amended_witness :
    (¬ c3w_pos.type = "negative") ∧
      ((([c3w_neg] ++ c3w_pos :: []).foldl (annStep [] .full false 0)
            (⟨c3w_mask, 0, []⟩ : AnnState) =
          [].foldl (annStep [] .full false 0)
            (annStep [] .full false 0
              ([c3w_neg].foldl (annStep [] .full false 0) (⟨c3w_mask, 0, []⟩ : AnnState))
              c3w_pos)) ∧
        ([c3w_neg].foldl (annStep [] .full false 0) (⟨c3w_mask, 0, []⟩ : AnnState)).mask =
          applyNegsOnly c3w_mask [c3w_neg] ∧
        (annStep [] .full false 0
            ([c3w_neg].foldl (annStep [] .full false 0) (⟨c3w_mask, 0, []⟩ : AnnState))
            c3w_pos =
          (if bbox_in_mask (applyNegsOnly c3w_mask [c3w_neg]) c3w_pos.bbox.toQ = true ∧
              (compute_iou_overlaps c3w_pos.bbox.toQ
                (([] : List Detection).map fun d => d.bbox.toQ)).any
                (fun v => decide (v ≠ 0)) = false ∧ EvalMode.full = .dz
          then [c3w_neg].foldl (annStep [] .full false 0) (⟨c3w_mask, 0, []⟩ : AnnState)
          else
            { mask := applyNegsOnly c3w_mask [c3w_neg],
              ann_id := ([c3w_neg].foldl (annStep [] .full false 0)
                (⟨c3w_mask, 0, []⟩ : AnnState)).ann_id + 1,
              entries :=
                ([c3w_neg].foldl (annStep [] .full false 0)
                  (⟨c3w_mask, 0, []⟩ : AnnState)).entries ++ [{
                  id := ([c3w_neg].foldl (annStep [] .full false 0)
                    (⟨c3w_mask, 0, []⟩ : AnnState)).ann_id,
                  image_id := 0,
                  category_id := if false then 0 else classNameToId c3w_pos.type,
                  bbox := c3w_pos.bbox,
                  iscrowd := 0,
                  area := c3w_pos.area,
                  ignore := if bbox_in_mask (applyNegsOnly c3w_mask [c3w_neg])
                    c3w_pos.bbox.toQ then 1 else 0 }] }))) :=
  ⟨by decide, c3_amended [] .full false 0 c3w_mask [c3w_neg] [] c3w_pos 0 (by decide)⟩

/-- C3 counterexample: a frame whose annotation list is a positive box followed by
a negative annotation covering exactly the same region emits the positive box
with ignore = 0: its flag was computed before the later negative marked the
mask, even though the box lies entirely inside that negative region (against
the mask with all the negatives of the frame applied, the flag would be 1). -/
theorem c3_counterexample :
    convert_to_coco_structures okZeroDzFn okZeroEdgeFn [c3_dseq] [c3_rseq] none .full false =
        .ok ⟨1, 1, [⟨0, 1278, 958, "frame0.jpg"⟩],
          [⟨0, 0, 0, ⟨0, 0, 2, 2⟩, 0, 4, 0⟩], []⟩ ∧
      bbox_in_mask (applyNegsOnly (npClamp01 (npZeros imageHeight imageWidth)) c3_obstacles)
        (IBox.toQ ⟨0, 0, 2, 2⟩) = true :=
  ⟨rfl, rfl⟩

theorem npOnes_allOnes : allOnesOn (npOnes imageHeight imageWidth) :=
  ⟨rfl, rfl, fun _ _ _ _ => rfl⟩

theorem npSetRegion_allOnes (m : NpMask) (hm : allOnesOn m) (x y w h : ℤ) :
    allOnesOn (npSetRegion m x y w h 1) := by
  obtain ⟨hh, hw, hv⟩ := hm
  refine ⟨hh, hw, fun i j hi hj => ?_⟩
  show (if (sliceNorm m.h y ≤ i ∧ i < sliceNorm m.h (y + h)) ∧
      (sliceNorm m.w x ≤ j ∧ j < sliceNorm m.w (x + w)) then 1 else m.val i j) = 1
  split
  · rfl
  · exact hv i j hi hj

theorem bbox_in_mask_allOnes (m : NpMask) (hm : allOnesOn m) (r : QBox) (thr : ℚ) :
    bbox_in_mask m r thr = bbox_in_mask (npOnes imageHeight imageWidth) r thr := by
  obtain ⟨hh, hw, hv⟩ := hm
  exact bbox_in_mask_congr m (npOnes imageHeight imageWidth) r thr hh hw
    (fun i j hi hj => hv i j hi hj)

theorem annFold_allOnes (dets : List Detection) (mode : EvalMode) (icl : Bool)
    (imgId : ℕ) (hmode : ¬ mode = .dz) :
    ∀ (l : List Obstacle) (s : AnnState), allOnesOn s.mask →
      allOnesOn ((l.foldl (annStep dets mode icl imgId) s).mask) ∧
      (l.foldl (annStep dets mode icl imgId) s).entries.map annEntrySig =
        s.entries.map annEntrySig ++
          (l.filter fun a => !(a.type == "negative")).map fun a =>
            (imgId, (if icl then 0 else classNameToId a.type), a.bbox,
              if bbox_in_mask (npOnes imageHeight imageWidth) a.bbox.toQ then 1 else 0) := by
  intro l
  induction l with
  | nil => intro s hs; exact ⟨hs, by simp⟩
  | cons a t ih =>
    intro s hs
    rw [List.foldl_cons]
    by_cases hneg : a.type = "negative"
    · rw [annStep_neg dets mode icl imgId s a hneg]
      have hs2 : allOnesOn (npSetRegion s.mask a.bbox.x a.bbox.y a.bbox.w a.bbox.h 1) :=
        npSetRegion_allOnes s.mask hs _ _ _ _
      obtain ⟨h1, h2⟩ := ih { s with
        mask := npSetRegion s.mask a.bbox.x a.bbox.y a.bbox.w a.bbox.h 1 } hs2
      refine ⟨h1, ?_⟩
      rw [h2, List.filter_cons_of_neg (by simp [hneg])]
    · rw [annStep_pos dets mode icl imgId s a hneg]
      rw [if_neg (fun hcond => hmode hcond.2.2)]
      have hs2 : allOnesOn ({ s with
          entries := s.entries ++ [{
            id := s.ann_id,
            image_id := imgId,
            category_id := if icl then 0 else classNameToId a.type,
            bbox := a.bbox,
            iscrowd := 0,
            area := a.area,
            ignore := if bbox_in_mask s.mask a.bbox.toQ then 1 else 0 }],
          ann_id := s.ann_id + 1 } : AnnState).mask := hs
      obtain ⟨h1, h2⟩ := ih _ hs2
      refine ⟨h1, ?_⟩
      rw [h2, List.filter_cons_of_pos (by simp [hneg])]
      simp only [List.map_append, List.map_cons, List.map_nil, List.append_assoc]
      have hsig : annEntrySig {
          id := s.ann_id,
          image_id := imgId,
          category_id := if icl then 0 else classNameToId a.type,
          bbox := a.bbox,
          iscrowd := 0,
          area := a.area,
          ignore := if bbox_in_mask s.mask a.bbox.toQ then 1 else 0 } =
          (imgId, (if icl then 0 else classNameToId a.type), a.bbox,
            if bbox_in_mask (npOnes imageHeight imageWidth) a.bbox.toQ then 1 else 0) := by
        unfold annEntrySig
        rw [bbox_in_mask_allOnes s.mask hs]
      rw [hsig]
      simp

theorem detStep_apply (obstacles : List Obstacle) (mode : EvalMode) (icl : Bool)
    (imgId : ℕ) (mask : NpMask) (acc : List DetEntry) (d : Detection)
    (hmode : ¬ mode = .dz) :
    detStep obstacles mode icl imgId mask acc d =
      acc ++ [{
        image_id := imgId,
        category_id := if icl then 0 else detTypeToId d.type,
        bbox := d.bbox,
        score := 1,
        ignore := if bbox_in_mask mask d.bbox.toQ then 1 else 0 }] := by
  unfold detStep
  rw [if_neg (fun hcond => hmode hcond.2.2)]

theorem detFold_onesEntries (obstacles : List Obstacle) (mode : EvalMode) (icl : Bool)
    (imgId : ℕ) (mask : NpMask) (hm : allOnesOn mask) (hmode : ¬ mode = .dz) :
    ∀ (l : List Detection) (acc : List DetEntry),
      (l.foldl (detStep obstacles mode icl imgId mask) acc).map detEntrySig =
        acc.map detEntrySig ++ l.map fun d =>
          (imgId, (if icl then 0 else detTypeToId d.type), d.bbox,
            if bbox_in_mask (npOnes imageHeight imageWidth) d.bbox.toQ then 1 else 0) := by
  intro l
  induction l with
  | nil => intro acc; simp
  | cons d t ih =>
    intro acc
    rw [List.foldl_cons]
    rw [detStep_apply obstacles mode icl imgId mask acc d hmode]
    rw [ih]
    simp only [List.map_append, List.map_cons, List.map_nil, List.append_assoc]
    have hsig : detEntrySig {
        image_id := imgId,
        category_id := if icl then 0 else detTypeToId d.type,
        bbox := d.bbox,
        score := 1,
        ignore := if bbox_in_mask mask d.bbox.toQ then 1 else 0 } =
        (imgId, (if icl then 0 else detTypeToId d.type), d.bbox,
          if bbox_in_mask (npOnes imageHeight imageWidth) d.bbox.toQ then 1 else 0) := by
      unfold detEntrySig
      rw [bbox_in_mask_allOnes mask hm]
    rw [hsig]
    simp

/-- C4 amended: for a non-exhaustive frame evaluated in mode edge, the frame mask
is the all-ones (all-ignore) mask, but annotations and detections are NOT
excluded from the corpus: every non-negative annotation and every detection of
the frame is emitted, with its ignore flag computed against the all-ones mask
(1 for every box whose coverage of the image area exceeds the threshold); the
drop rule applies only in dz mode. -/
theorem c4_amended (dzFn : String → ℚ → ℚ → Except String NpMask)
    (edgeFn : List (List ℚ × List ℚ) → Except String NpMask)
    (icl : Bool) (pth : String) (smk : Option NpMask) (sex : Bool)
    (st : ConvState) (df : DFrame) (rf : RFrame)
    (hid : df.id = rf.id) (hfex : frameExhaustive sex df = false) :
    frameMask dzFn edgeFn .edge pth smk (frameExhaustive sex df) df =
        .ok (npOnes imageHeight imageWidth) ∧
      ∃ stn, processFrame dzFn edgeFn .edge icl pth smk sex st (df, rf) = .ok stn ∧
        stn.anns.map annEntrySig = st.anns.map annEntrySig ++
          ((df.obstacles.filter fun a => !(a.type == "negative")).map fun a =>
            (st.image_id, (if icl then 0 else classNameToId a.type), a.bbox,
              if bbox_in_mask (npOnes imageHeight imageWidth) a.bbox.toQ then 1 else 0)) ∧
        stn.dets.map detEntrySig = st.dets.map detEntrySig ++
          (rf.detections.map fun d =>
            (st.image_id, (if icl then 0 else detTypeToId d.type), d.bbox,
              if bbox_in_mask (npOnes imageHeight imageWidth) d.bbox.toQ then 1 else 0)) ∧
        stn.images = st.images ++
          [⟨st.image_id, imageWidth, imageHeight, df.image_file_name⟩] := by
  have hfm : frameMask dzFn edgeFn .edge pth smk false df =
      .ok (npOnes imageHeight imageWidth) := rfl
  rw [hfex]
  refine ⟨hfm, ?_⟩
  have hedge : ¬ EvalMode.edge = EvalMode.dz := by decide
  have hann := annFold_allOnes rf.detections .edge icl st.image_id hedge df.obstacles
    (⟨npOnes imageHeight imageWidth, st.annotation_id, []⟩ : AnnState) npOnes_allOnes
  obtain ⟨hmaskOnes, hentries⟩ := hann
  have hdets := detFold_onesEntries df.obstacles .edge icl st.image_id
    ((df.obstacles.foldl (annStep rf.detections .edge icl st.image_id)
      (⟨npOnes imageHeight imageWidth, st.annotation_id, []⟩ : AnnState)).mask)
    hmaskOnes hedge rf.detections []
  have hpf : processFrame dzFn edgeFn .edge icl pth smk sex st (df, rf) = .ok {
      image_id := st.image_id + 1,
      annotation_id := (annLoop (npOnes imageHeight imageWidth) df.obstacles rf.detections
        .edge icl st.image_id st.annotation_id).ann_id,
      images := st.images ++ [⟨st.image_id, imageWidth, imageHeight, df.image_file_name⟩],
      anns := st.anns ++ (annLoop (npOnes imageHeight imageWidth) df.obstacles rf.detections
        .edge icl st.image_id st.annotation_id).entries,
      dets := st.dets ++ detLoop ((annLoop (npOnes imageHeight imageWidth) df.obstacles
          rf.detections .edge icl st.image_id st.annotation_id).mask) df.obstacles
        rf.detections .edge icl st.image_id } := by
    unfold processFrame
    rw [if_neg (by simp [hid]), hfex]
    rfl
  refine ⟨_, hpf, ?_, ?_, ?_⟩
  · show (st.anns ++ (annLoop (npOnes imageHeight imageWidth) df.obstacles rf.detections
        .edge icl st.image_id st.annotation_id).entries).map annEntrySig = _
    rw [List.map_append]
    unfold annLoop
    rw [hentries]
    simp
  · show (st.dets ++ detLoop ((annLoop (npOnes imageHeight imageWidth) df.obstacles
        rf.detections .edge icl st.image_id st.annotation_id).mask) df.obstacles
        rf.detections .edge icl st.image_id).map detEntrySig = _
    rw [List.map_append]
    unfold detLoop annLoop
    rw [hdets]
    simp
  · rfl

theorem c4_amended_witness :
    (c4w_df.id = c4w_rf.id ∧ frameExhaustive false c4w_df = false) ∧
      (frameMask okZeroDzFn okZeroEdgeFn .edge "p" none (frameExhaustive false c4w_df) c4w_df =
          .ok (npOnes imageHeight imageWidth) ∧
        ∃ stn, processFrame okZeroDzFn okZeroEdgeFn .edge false "p" none false
            (⟨0, 0, [], [], []⟩ : ConvState) (c4w_df, c4w_rf) = .ok stn ∧
          stn.anns.map annEntrySig =
            (⟨0, 0, [], [], []⟩ : ConvState).anns.map annEntrySig ++
              ((c4w_df.obstacles.filter fun a => !(a.type == "negative")).map fun a =>
                (0, (if false then 0 else classNameToId a.type), a.bbox,
                  if bbox_in_mask (npOnes imageHeight imageWidth) a.bbox.toQ then 1 else 0)) ∧
          stn.dets.map detEntrySig =
            (⟨0, 0, [], [], []⟩ : ConvState).dets.map detEntrySig ++
              (c4w_rf.detections.map fun d =>
                (0, (if false then 0 else detTypeToId d.type), d.bbox,
                  if bbox_in_mask (npOnes imageHeight imageWidth) d.bbox.toQ then 1 else 0)) ∧
          stn.images = (⟨0, 0, [], [], []⟩ : ConvState).images ++
            [⟨0, imageWidth, imageHeight, c4w_df.image_file_name⟩]) :=
  ⟨⟨rfl, rfl⟩, c4_amended okZeroDzFn okZeroEdgeFn false "p" none false
    (⟨0, 0, [], [], []⟩ : ConvState) c4w_df c4w_rf rfl rfl⟩

/-- C4 counterexample: a non-exhaustive frame in mode edge with one annotation and
one detection produces a corpus with one annotation entry and one detection
entry (both carrying ignore = 1), not an empty frame: nothing is excluded,
since the drop rule applies only in dz mode. -/
theorem c4_counterexample :
    convert_to_coco_structures okZeroDzFn okZeroEdgeFn [c4_dseq] [c4_rseq] none .edge false =
        .ok ⟨1, 1, [⟨0, 1278, 958, "frame0.jpg"⟩],
          [⟨0, 0, 0, ⟨0, 0, 2, 2⟩, 0, 4, 1⟩],
          [⟨0, 0, ⟨10, 10, 2, 2⟩, 1, 1⟩]⟩ ∧
      c4_dseq.frames.length = 1 :=
  ⟨rfl, rfl⟩

theorem annStep_unfold (dets : List Detection) (mode : EvalMode) (icl : Bool) (imgId : ℕ)
    (s : AnnState) (a : Obstacle) :
    annStep dets mode icl imgId s a =
      if a.type = "negative" then
        { s with mask := npSetRegion s.mask a.bbox.x a.bbox.y a.bbox.w a.bbox.h 1 }
      else if bbox_in_mask s.mask a.bbox.toQ = true ∧
          (compute_iou_overlaps a.bbox.toQ (dets.map fun d => d.bbox.toQ)).any
            (fun v => decide (v ≠ 0)) = false ∧ mode = .dz
      then s
      else
        { s with
          entries := s.entries ++ [{
            id := s.ann_id,
            image_id := imgId,
            category_id := if icl then 0 else classNameToId a.type,
            bbox := a.bbox,
            iscrowd := 0,
            area := a.area,
            ignore := if bbox_in_mask s.mask a.bbox.toQ then 1 else 0 }],
          ann_id := s.ann_id + 1 } := rfl

theorem detStep_unfold (obstacles : List Obstacle) (mode : EvalMode) (icl : Bool)
    (imgId : ℕ) (mask : NpMask) (acc : List DetEntry) (d : Detection) :
    detStep obstacles mode icl imgId mask acc d =
      if bbox_in_mask mask d.bbox.toQ = true ∧
          (compute_iou_overlaps d.bbox.toQ (obstacles.map fun a => a.bbox.toQ)).any
            (fun v => decide (v ≠ 0)) = false ∧ mode = .dz
      then acc
      else
        acc ++ [{
          image_id := imgId,
          category_id := if icl then 0 else detTypeToId d.type,
          bbox := d.bbox,
          score := 1,
          ignore := if bbox_in_mask mask d.bbox.toQ then 1 else 0 }] := rfl

theorem annFold_entries_imgid (dets : List Detection) (mode : EvalMode) (icl : Bool)
    (imgId : ℕ) :
    ∀ (l : List Obstacle) (s : AnnState),
      (∀ e ∈ s.entries, e.image_id = imgId) →
      ∀ e ∈ (l.foldl (annStep dets mode icl imgId) s).entries, e.image_id = imgId := by
  intro l
  induction l with
  | nil => intro s hs; exact hs
  | cons a t ih =>
    intro s hs
    rw [List.foldl_cons, annStep_unfold]
    split
    · exact ih _ hs
    · split
      · exact ih _ hs
      · apply ih
        intro e he
        rcases List.mem_append.mp he with h1 | h1
        · exact hs e h1
        · rw [List.mem_singleton.mp h1]

theorem detFold_imgid (obstacles : List Obstacle) (mode : EvalMode) (icl : Bool)
    (imgId : ℕ) (mask : NpMask) :
    ∀ (l : List Detection) (acc : List DetEntry),
      (∀ e ∈ acc, e.image_id = imgId) →
      ∀ e ∈ l.foldl (detStep obstacles mode icl imgId mask) acc, e.image_id = imgId := by
  intro l
  induction l with
  | nil => intro acc hacc; exact hacc
  | cons d t ih =>
    intro acc hacc
    rw [List.foldl_cons, detStep_unfold]
    split
    · exact ih _ hacc
    · apply ih
      intro e he
      rcases List.mem_append.mp he with h1 | h1
      · exact hacc e h1
      · rw [List.mem_singleton.mp h1]

theorem processFrame_ok_spec (dzFn : String → ℚ → ℚ → Except String NpMask)
    (edgeFn : List (List ℚ × List ℚ) → Except String NpMask)
    (mode : EvalMode) (icl : Bool) (pth : String) (smk : Option NpMask) (sex : Bool)
    (st stn : ConvState) (pr : DFrame × RFrame)
    (h : processFrame dzFn edgeFn mode icl pth smk sex st pr = .ok stn) :
    stn.images = st.images ++
        [⟨st.image_id, imageWidth, imageHeight, pr.1.image_file_name⟩] ∧
      stn.image_id = st.image_id + 1 ∧
      (∀ a ∈ stn.anns, a ∈ st.anns ∨ a.image_id = st.image_id) ∧
      (∀ d ∈ stn.dets, d ∈ st.dets ∨ d.image_id = st.image_id) := by
  unfold processFrame at h
  by_cases hne : pr.1.id ≠ pr.2.id
  · rw [if_pos hne] at h
    exact Except.noConfusion h
  · rw [if_neg hne] at h
    cases hfm : frameMask dzFn edgeFn mode pth smk (frameExhaustive sex pr.1) pr.1 with
    | error e =>
      rw [hfm] at h
      exact Except.noConfusion h
    | ok mask =>
      rw [hfm] at h
      injection h with h2
      subst h2
      refine ⟨rfl, rfl, ?_, ?_⟩
      · intro a ha
        rcases List.mem_append.mp ha with h1 | h1
        · exact Or.inl h1
        · right
          exact annFold_entries_imgid _ _ _ _ _ _
            (fun e he => absurd he (List.not_mem_nil e)) a h1
      · intro d hd
        rcases List.mem_append.mp hd with h1 | h1
        · exact Or.inl h1
        · right
          exact detFold_imgid _ _ _ _ _ _ _
            (fun e he => absurd he (List.not_mem_nil e)) d h1

theorem processFrame_inv (dzFn : String → ℚ → ℚ → Except String NpMask)
    (edgeFn : List (List ℚ × List ℚ) → Except String NpMask)
    (mode : EvalMode) (icl : Bool) (pth : String) (smk : Option NpMask) (sex : Bool)
    (st : ConvState) (pr : DFrame × RFrame) (stn : ConvState)
    (h : processFrame dzFn edgeFn mode icl pth smk sex st pr = .ok stn)
    (hinv : convInv st) : convInv stn := by
  obtain ⟨himg, hctr, hanns, hdets⟩ := hinv
  obtain ⟨h1, h2, h3, h4⟩ := processFrame_ok_spec dzFn edgeFn mode icl pth smk sex
    st stn pr h
  have hlen : stn.images.length = st.images.length + 1 := by
    rw [h1, List.length_append, List.length_singleton]
  refine ⟨?_, ?_, ?_, ?_⟩
  · rw [h1, List.map_append, himg, hctr]
    simp [List.range_succ]
  · rw [h2, hctr, hlen]
  · intro a ha
    rw [hlen]
    rcases h3 a ha with h5 | h5
    · exact lt_trans (hanns a h5) (Nat.lt_succ_self _)
    · rw [h5, hctr]
      exact Nat.lt_succ_self _
  · intro d hd
    rw [hlen]
    rcases h4 d hd with h5 | h5
    · exact lt_trans (hdets d h5) (Nat.lt_succ_self _)
    · rw [h5, hctr]
      exact Nat.lt_succ_self _

theorem except_foldlM_inv {σ α : Type} (f : σ → α → Except String σ) (P : σ → Prop)
    (hf : ∀ s a sn, f s a = .ok sn → P s → P sn) :
    ∀ (l : List α) (s sn : σ), l.foldlM f s = .ok sn → P s → P sn := by
  intro l
  induction l with
  | nil =>
    intro s sn hfold hs
    rw [List.foldlM_nil] at hfold
    injection hfold with h2
    rw [← h2]
    exact hs
  | cons x xs ih =>
    intro s sn hfold hs
    rw [List.foldlM_cons] at hfold
    cases hstep : f s x with
    | error e =>
      rw [hstep, except_bind_error_eq] at hfold
      exact Except.noConfusion hfold
    | ok t =>
      rw [hstep, except_bind_ok_eq] at hfold
      exact ih t sn hfold (hf s x t hstep hs)

theorem processSeq_inv (dzFn : String → ℚ → ℚ → Except String NpMask)
    (edgeFn : List (List ℚ × List ℚ) → Except String NpMask)
    (mode : EvalMode) (icl : Bool) (st : ConvState) (pr : DSeq × RSeq) (stn : ConvState)
    (h : processSeq dzFn edgeFn mode icl st pr = .ok stn)
    (hinv : convInv st) : convInv stn := by
  unfold processSeq at h
  by_cases hne : pr.1.id ≠ pr.2.id
  · rw [if_pos hne] at h
    exact Except.noConfusion h
  · rw [if_neg hne] at h
    exact except_foldlM_inv _ convInv
      (fun s a sn hstep hs => processFrame_inv dzFn edgeFn mode icl pr.1.path pr.1.mask
        (decide (pr.1.exhaustive > 0)) s a sn hstep hs) _ st stn h hinv

theorem convert_inv (dzFn : String → ℚ → ℚ → Except String NpMask)
    (edgeFn : List (List ℚ × List ℚ) → Except String NpMask)
    (ds : List DSeq) (rs : List RSeq) (sel : Option (List ℤ)) (mode : EvalMode)
    (icl : Bool) (st : ConvState)
    (h : convert_to_coco_structures dzFn edgeFn ds rs sel mode icl = .ok st) :
    convInv st := by
  unfold convert_to_coco_structures at h
  by_cases hlen : (selectSeqsD sel ds).length ≠ (selectSeqsR sel rs).length
  · rw [if_pos hlen] at h
    exact Except.noConfusion h
  · rw [if_neg hlen] at h
    exact except_foldlM_inv _ convInv
      (fun s a sn hstep hs => processSeq_inv dzFn edgeFn mode icl s a sn hstep hs)
      _ _ st h ⟨rfl, rfl, fun a ha => absurd ha (List.not_mem_nil a),
        fun d hd => absurd hd (List.not_mem_nil d)⟩

theorem sortSeqsD_sorted (l : List DSeq) :
    List.Pairwise (fun a b : DSeq => a.id ≤ b.id) (sortSeqsD l) := by
  have h := @List.sorted_mergeSort DSeq (fun a b : DSeq => decide (a.id ≤ b.id))
    (fun a b c h1 h2 => by
      simp only [decide_eq_true_eq] at *
      exact le_trans h1 h2)
    (fun a b => by
      simp only [Bool.or_eq_true, decide_eq_true_eq]
      exact le_total a.id b.id)
    l
  exact h.imp fun hab => by simpa using hab

theorem sortSeqsR_sorted (l : List RSeq) :
    List.Pairwise (fun a b : RSeq => a.id ≤ b.id) (sortSeqsR l) := by
  have h := @List.sorted_mergeSort RSeq (fun a b : RSeq => decide (a.id ≤ b.id))
    (fun a b c h1 h2 => by
      simp only [decide_eq_true_eq] at *
      exact le_trans h1 h2)
    (fun a b => by
      simp only [Bool.or_eq_true, decide_eq_true_eq]
      exact le_total a.id b.id)
    l
  exact h.imp fun hab => by simpa using hab

theorem sortSeqsD_eq_of_perm (l1 l2 : List DSeq) (hperm : l1.Perm l2)
    (hnd : (l1.map fun s => s.id).Nodup) : sortSeqsD l1 = sortSeqsD l2 := by
  have hp1 : (sortSeqsD l1).Perm l1 := List.mergeSort_perm l1 _
  have hp2 : (sortSeqsD l2).Perm l2 := List.mergeSort_perm l2 _
  have hp : (sortSeqsD l1).Perm (sortSeqsD l2) := hp1.trans (hperm.trans hp2.symm)
  have hnd1 : ((sortSeqsD l1).map fun s => s.id).Nodup :=
    (List.Perm.nodup_iff (hp1.map fun s => s.id)).mpr hnd
  have hnd2 : ((sortSeqsD l2).map fun s => s.id).Nodup :=
    (List.Perm.nodup_iff (hp2.map fun s => s.id)).mpr
      ((List.Perm.nodup_iff (hperm.symm.map fun s => s.id)).mpr hnd)
  have hlt1 : List.Pairwise (fun a b : DSeq => a.id < b.id) (sortSeqsD l1) :=
    ((sortSeqsD_sorted l1).and (List.pairwise_map.mp hnd1)).imp
      fun hab => lt_of_le_of_ne hab.1 hab.2
  have hlt2 : List.Pairwise (fun a b : DSeq => a.id < b.id) (sortSeqsD l2) :=
    ((sortSeqsD_sorted l2).and (List.pairwise_map.mp hnd2)).imp
      fun hab => lt_of_le_of_ne hab.1 hab.2
  haveI : IsAntisymm DSeq (fun a b : DSeq => a.id < b.id) :=
    ⟨fun a b h1 h2 => absurd (lt_trans h1 h2) (lt_irrefl _)⟩
  exact List.eq_of_perm_of_sorted hp hlt1 hlt2

theorem sortSeqsR_eq_of_perm (l1 l2 : List RSeq) (hperm : l1.Perm l2)
    (hnd : (l1.map fun s => s.id).Nodup) : sortSeqsR l1 = sortSeqsR l2 := by
  have hp1 : (sortSeqsR l1).Perm l1 := List.mergeSort_perm l1 _
  have hp2 : (sortSeqsR l2).Perm l2 := List.mergeSort_perm l2 _
  have hp : (sortSeqsR l1).Perm (sortSeqsR l2) := hp1.trans (hperm.trans hp2.symm)
  have hnd1 : ((sortSeqsR l1).map fun s => s.id).Nodup :=
    (List.Perm.nodup_iff (hp1.map fun s => s.id)).mpr hnd
  have hnd2 : ((sortSeqsR l2).map fun s => s.id).Nodup :=
    (List.Perm.nodup_iff (hp2.map fun s => s.id)).mpr
      ((List.Perm.nodup_iff (hperm.symm.map fun s => s.id)).mpr hnd)
  have hlt1 : List.Pairwise (fun a b : RSeq => a.id < b.id) (sortSeqsR l1) :=
    ((sortSeqsR_sorted l1).and (List.pairwise_map.mp hnd1)).imp
      fun hab => lt_of_le_of_ne hab.1 hab.2
  have hlt2 : List.Pairwise (fun a b : RSeq => a.id < b.id) (sortSeqsR l2) :=
    ((sortSeqsR_sorted l2).and (List.pairwise_map.mp hnd2)).imp
      fun hab => lt_of_le_of_ne hab.1 hab.2
  haveI : IsAntisymm RSeq (fun a b : RSeq => a.id < b.id) :=
    ⟨fun a b h1 h2 => absurd (lt_trans h1 h2) (lt_irrefl _)⟩
  exact List.eq_of_perm_of_sorted hp hlt1 hlt2

theorem selectSeqsD_perm (sel : Option (List ℤ)) (l1 l2 : List DSeq) (h : l1.Perm l2) :
    (selectSeqsD sel l1).Perm (selectSeqsD sel l2) := by
  cases sel with
  | none => exact h
  | some ids =>
    show (if ids.isEmpty = true then l1 else l1.filter fun s => decide (s.id ∈ ids)).Perm
      (if ids.isEmpty = true then l2 else l2.filter fun s => decide (s.id ∈ ids))
    by_cases hemp : ids.isEmpty = true
    · rw [if_pos hemp, if_pos hemp]
      exact h
    · rw [if_neg hemp, if_neg hemp]
      exact h.filter _

theorem selectSeqsR_perm (sel : Option (List ℤ)) (l1 l2 : List RSeq) (h : l1.Perm l2) :
    (selectSeqsR sel l1).Perm (selectSeqsR sel l2) := by
  cases sel with
  | none => exact h
  | some ids =>
    show (if ids.isEmpty = true then l1 else l1.filter fun s => decide (s.id ∈ ids)).Perm
      (if ids.isEmpty = true then l2 else l2.filter fun s => decide (s.id ∈ ids))
    by_cases hemp : ids.isEmpty = true
    · rw [if_pos hemp, if_pos hemp]
      exact h
    · rw [if_neg hemp, if_neg hemp]
      exact h.filter _

/-- C5: whenever the corpus assembler completes, the image ids are exactly
0, 1, ..., n−1 in emission order (unique and contiguous from 0, one per
registered frame, with the global counter equal to the number of images);
every emitted annotation and detection references a registered image id, and
per frame every entry emitted while processing that frame carries exactly that
frame's image id, which is incremented once per frame; the sequences are
processed in ascending sequence-id order, and the output is invariant under
permutations of the input sequence lists (for selected sequences with distinct
ids on each side). -/
theorem image_ids_contiguous (dzFn : String → ℚ → ℚ → Except String NpMask)
    (edgeFn : List (List ℚ × List ℚ) → Except String NpMask)
    (ds : List DSeq) (rs : List RSeq) (sel : Option (List ℤ)) (mode : EvalMode)
    (icl : Bool) (st : ConvState)
    (h : convert_to_coco_structures dzFn edgeFn ds rs sel mode icl = .ok st) :
    (st.images.map fun e => e.id) = List.range st.images.length ∧
      st.image_id = st.images.length ∧
      (∀ a ∈ st.anns, a.image_id < st.images.length) ∧
      (∀ d ∈ st.dets, d.image_id < st.images.length) ∧
      List.Pairwise (fun a b : DSeq => a.id ≤ b.id) (sortSeqsD (selectSeqsD sel ds)) ∧
      (∀ (pth : String) (smk : Option NpMask) (sex : Bool) (st0 stn : ConvState)
          (pr : DFrame × RFrame),
        processFrame dzFn edgeFn mode icl pth smk sex st0 pr = .ok stn →
        stn.images = st0.images ++
            [⟨st0.image_id, imageWidth, imageHeight, pr.1.image_file_name⟩] ∧
          stn.image_id = st0.image_id + 1 ∧
          (∀ a ∈ stn.anns, a ∈ st0.anns ∨ a.image_id = st0.image_id) ∧
          (∀ d ∈ stn.dets, d ∈ st0.dets ∨ d.image_id = st0.image_id)) ∧
      (∀ (ds2 : List DSeq) (rs2 : List RSeq), ds.Perm ds2 → rs.Perm rs2 →
        ((selectSeqsD sel ds).map fun s => s.id).Nodup →
        ((selectSeqsR sel rs).map fun s => s.id).Nodup →
        convert_to_coco_structures dzFn edgeFn ds2 rs2 sel mode icl = .ok st) := by
  obtain ⟨h1, h2, h3, h4⟩ := convert_inv dzFn edgeFn ds rs sel mode icl st h
  refine ⟨h1, h2, h3, h4, sortSeqsD_sorted _,
    fun pth smk sex st0 stn pr hpf =>
      processFrame_ok_spec dzFn edgeFn mode icl pth smk sex st0 stn pr hpf,
    fun ds2 rs2 hpd hpr hndD hndR => ?_⟩
  have hselD := selectSeqsD_perm sel ds ds2 hpd
  have hselR := selectSeqsR_perm sel rs rs2 hpr
  have hsortD := sortSeqsD_eq_of_perm _ _ hselD hndD
  have hsortR := sortSeqsR_eq_of_perm _ _ hselR hndR
  have heq : convert_to_coco_structures dzFn edgeFn ds2 rs2 sel mode icl =
      convert_to_coco_structures dzFn edgeFn ds rs sel mode icl := by
    unfold convert_to_coco_structures
    rw [← hselD.length_eq, ← hselR.length_eq, ← hsortD, ← hsortR]
  rw [heq]
  exact h

theorem image_ids_contiguous_witness :
    convert_to_coco_structures okZeroDzFn okZeroEdgeFn [c5_dA, c5_dB] [c5_rA, c5_rB]
        none .full false = .ok c5_out ∧
      ((c5_out.images.map fun e => e.id) = List.range c5_out.images.length ∧
        c5_out.image_id = c5_out.images.length ∧
        (∀ a ∈ c5_out.anns, a.image_id < c5_out.images.length) ∧
        (∀ d ∈ c5_out.dets, d.image_id < c5_out.images.length) ∧
        List.Pairwise (fun a b : DSeq => a.id ≤ b.id)
          (sortSeqsD (selectSeqsD none [c5_dA, c5_dB])) ∧
        (∀ (pth : String) (smk : Option NpMask) (sex : Bool) (st0 stn : ConvState)
            (pr : DFrame × RFrame),
          processFrame okZeroDzFn okZeroEdgeFn .full false pth smk sex st0 pr = .ok stn →
          stn.images = st0.images ++
              [⟨st0.image_id, imageWidth, imageHeight, pr.1.image_file_name⟩] ∧
            stn.image_id = st0.image_id + 1 ∧
            (∀ a ∈ stn.anns, a ∈ st0.anns ∨ a.image_id = st0.image_id) ∧
            (∀ d ∈ stn.dets, d ∈ st0.dets ∨ d.image_id = st0.image_id)) ∧
        (∀ (ds2 : List DSeq) (rs2 : List RSeq),
          List.Perm [c5_dA, c5_dB] ds2 → List.Perm [c5_rA, c5_rB] rs2 →
          ((selectSeqsD none [c5_dA, c5_dB]).map fun s => s.id).Nodup →
          ((selectSeqsR none [c5_rA, c5_rB]).map fun s => s.id).Nodup →
          convert_to_coco_structures okZeroDzFn okZeroEdgeFn ds2 rs2 none .full false =
            .ok c5_out)) :=
  ⟨rfl, image_ids_contiguous okZeroDzFn okZeroEdgeFn [c5_dA, c5_dB] [c5_rA, c5_rB]
    none .full false c5_out rfl⟩
